import Mathlib

/-!
Verification development for the btc-tx-stats chain indexer.

The Rust sources (src/processor.rs, src/db.rs, src/db/schema.rs,
src/db/models.rs, src/main.rs) are shallowly embedded below:

* byte strings are `List Nat` (each entry a byte value),
* the script classifier `extract_address_from_script` and the input-script
  pubkey extractor `extract_public_key_from_script` are translated as pure
  functions over parsed instruction lists, mirroring the control flow of
  processor.rs (including the rust-bitcoin script instruction iterator,
  which drops the un-decodable tail of a script),
* the Postgres store (db.rs) is modelled as explicit state passing over a
  `Db` record whose tables are lists of rows; SQL defaults and constraints
  that live in the migrations directory (not under src/) are modelled from
  the spec where needed,
* the catch-up loop `process_all_blocks` is modelled as a function of the
  start height and of the sequence of tip values returned by successive
  tip probes.

Crypto primitives used by the address encodings (SHA-256, RIPEMD-160,
Base58Check, Bech32/Bech32m, hex) come from external crates in the Rust
code; they are implemented here in full so every definition is executable.
-/

/-- Mask to 32 bits (values are kept below 2 to the 32 everywhere). -/
def u32 (n : Nat) : Nat := n % 4294967296

/-- Right rotation of a 32-bit value. -/
def rotr32 (s x : Nat) : Nat := u32 ((x >>> s) ||| (x <<< (32 - s)))

/-- Left rotation of a 32-bit value. -/
def rotl32 (s x : Nat) : Nat := u32 ((x <<< s) ||| (x >>> (32 - s)))

/-- Big-endian byte expansion of `n` into `count` bytes. -/
def beBytes (count n : Nat) : List Nat :=
  (List.range count).map (fun i => (n >>> (8 * (count - 1 - i))) &&& 255)

/-- Little-endian byte expansion of `n` into `count` bytes. -/
def leBytes (count n : Nat) : List Nat :=
  (List.range count).map (fun i => (n >>> (8 * i)) &&& 255)

/-- Group a byte list into big-endian 32-bit words (whole groups only). -/
def beWords : List Nat → List Nat
  | a :: b :: c :: d :: t => (((a * 256 + b) * 256 + c) * 256 + d) :: beWords t
  | _ => []

/-- Group a byte list into little-endian 32-bit words (whole groups only). -/
def leWords : List Nat → List Nat
  | a :: b :: c :: d :: t => (a + 256 * (b + 256 * (c + 256 * d))) :: leWords t
  | _ => []

/-- Split a word list into chunks of 16 words; the fuel argument only has to
dominate the list length. -/
def chunk16 : Nat → List Nat → List (List Nat)
  | 0, _ => []
  | _, [] => []
  | f + 1, ws => ws.take 16 :: chunk16 f (ws.drop 16)

/-- SHA-256 round constants. -/
def sha256K : List Nat :=
  [1116352408, 1899447441, 3049323471, 3921009573, 961987163,
   1508970993, 2453635748, 2870763221, 3624381080, 310598401,
   607225278, 1426881987, 1925078388, 2162078206, 2614888103,
   3248222580, 3835390401, 4022224774, 264347078, 604807628,
   770255983, 1249150122, 1555081692, 1996064986, 2554220882,
   2821834349, 2952996808, 3210313671, 3336571891, 3584528711,
   113926993, 338241895, 666307205, 773529912, 1294757372,
   1396182291, 1695183700, 1986661051, 2177026350, 2456956037,
   2730485921, 2820302411, 3259730800, 3345764771, 3516065817,
   3600352804, 4094571909, 275423344, 430227734, 506948616,
   659060556, 883997877, 958139571, 1322822218, 1537002063,
   1747873779, 1955562222, 2024104815, 2227730452, 2361852424,
   2428436474, 2756734187, 3204031479, 3329325298]

/-- SHA-256 initial state. -/
def sha256H0 : List Nat :=
  [1779033703, 3144134277, 1013904242, 2773480762,
   1359893119, 2600822924, 528734635, 1541459225]

/-- SHA-256 message padding: a 0x80 byte, zeros to 56 mod 64, then the
bit length as 8 big-endian bytes. -/
def sha256Pad (m : List Nat) : List Nat :=
  m ++ [128] ++ List.replicate ((119 - m.length % 64) % 64) 0 ++ beBytes 8 (8 * m.length)

/-- Message-schedule extension: appends `f` further words to the 16-word
block, each combining four earlier words. -/
def sha256Extend : Nat → List Nat → List Nat
  | 0, ws => ws
  | f + 1, ws =>
    let n := ws.length
    let g := fun i => ws.getD i 0
    let s0 := rotr32 7 (g (n - 15)) ^^^ rotr32 18 (g (n - 15)) ^^^ (g (n - 15) >>> 3)
    let s1 := rotr32 17 (g (n - 2)) ^^^ rotr32 19 (g (n - 2)) ^^^ (g (n - 2) >>> 10)
    sha256Extend f (ws ++ [u32 (g (n - 16) + s0 + g (n - 7) + s1)])

/-- The 64 SHA-256 compression rounds, state threaded as eight words. -/
def sha256Rounds : List (Nat × Nat) → Nat → Nat → Nat → Nat → Nat → Nat → Nat → Nat → List Nat
  | [], a, b, c, d, e, f, g, h => [a, b, c, d, e, f, g, h]
  | (k, w) :: rest, a, b, c, d, e, f, g, h =>
    let S1 := rotr32 6 e ^^^ rotr32 11 e ^^^ rotr32 25 e
    let ch := (e &&& f) ^^^ ((4294967295 ^^^ e) &&& g)
    let t1 := u32 (h + S1 + ch + k + w)
    let S0 := rotr32 2 a ^^^ rotr32 13 a ^^^ rotr32 22 a
    let mj := (a &&& b) ^^^ (a &&& c) ^^^ (b &&& c)
    let t2 := u32 (S0 + mj)
    sha256Rounds rest (u32 (t1 + t2)) a b c (u32 (d + t1)) e f g

/-- One SHA-256 block step. -/
def sha256Block (st blk : List Nat) : List Nat :=
  let ws := sha256Extend 48 blk
  let g := fun i => st.getD i 0
  let out := sha256Rounds (sha256K.zip ws) (g 0) (g 1) (g 2) (g 3) (g 4) (g 5) (g 6) (g 7)
  List.zipWith (fun x y => u32 (x + y)) st out

/-- SHA-256 of a byte list, yielding 32 bytes. -/
def sha256 (m : List Nat) : List Nat :=
  let ws := beWords (sha256Pad m)
  ((chunk16 ws.length ws).foldl sha256Block sha256H0).map (beBytes 4) |>.flatten

/-- RIPEMD-160 message order, left line. -/
def rmdRL : List Nat :=
  [0, 1, 2, 3, 4, 5, 6, 7, 8, 9, 10, 11, 12, 13, 14, 15,
   7, 4, 13, 1, 10, 6, 15, 3, 12, 0, 9, 5, 2, 14, 11, 8,
   3, 10, 14, 4, 9, 15, 8, 1, 2, 7, 0, 6, 13, 11, 5, 12,
   1, 9, 11, 10, 0, 8, 12, 4, 13, 3, 7, 15, 14, 5, 6, 2,
   4, 0, 5, 9, 7, 12, 2, 10, 14, 1, 3, 8, 11, 6, 15, 13]

/-- RIPEMD-160 message order, right line. -/
def rmdRR : List Nat :=
  [5, 14, 7, 0, 9, 2, 11, 4, 13, 6, 15, 8, 1, 10, 3, 12,
   6, 11, 3, 7, 0, 13, 5, 10, 14, 15, 8, 12, 4, 9, 1, 2,
   15, 5, 1, 3, 7, 14, 6, 9, 11, 8, 12, 2, 10, 0, 4, 13,
   8, 6, 4, 1, 3, 11, 15, 0, 5, 12, 2, 13, 9, 7, 10, 14,
   12, 15, 10, 4, 1, 5, 8, 7, 6, 2, 13, 14, 0, 3, 9, 11]

/-- RIPEMD-160 rotation amounts, left line. -/
def rmdSL : List Nat :=
  [11, 14, 15, 12, 5, 8, 7, 9, 11, 13, 14, 15, 6, 7, 9, 8,
   7, 6, 8, 13, 11, 9, 7, 15, 7, 12, 15, 9, 11, 7, 13, 12,
   11, 13, 6, 7, 14, 9, 13, 15, 14, 8, 13, 6, 5, 12, 7, 5,
   11, 12, 14, 15, 14, 15, 9, 8, 9, 14, 5, 6, 8, 6, 5, 12,
   9, 15, 5, 11, 6, 8, 13, 12, 5, 12, 13, 14, 11, 8, 5, 6]

/-- RIPEMD-160 rotation amounts, right line. -/
def rmdSR : List Nat :=
  [8, 9, 9, 11, 13, 15, 15, 5, 7, 7, 8, 11, 14, 14, 12, 6,
   9, 13, 15, 7, 12, 8, 9, 11, 7, 7, 12, 7, 6, 15, 13, 11,
   9, 7, 15, 11, 8, 6, 6, 14, 12, 13, 5, 14, 13, 13, 7, 5,
   15, 5, 8, 11, 14, 14, 6, 14, 6, 9, 12, 9, 12, 5, 15, 8,
   8, 5, 12, 9, 12, 5, 14, 6, 8, 13, 6, 5, 15, 13, 11, 11]

/-- RIPEMD-160 round constants, left line, indexed by round group. -/
def rmdKL : List Nat := [0, 0x5a827999, 0x6ed9eba1, 0x8f1bbcdc, 0xa953fd4e]

/-- RIPEMD-160 round constants, right line, indexed by round group. -/
def rmdKR : List Nat := [0x50a28be6, 0x5c4dd124, 0x6d703ef3, 0x7a6d76e9, 0]

/-- RIPEMD-160 selection functions f1 through f5 (index 0 through 4). -/
def rmdF : Nat → Nat → Nat → Nat → Nat
  | 0, x, y, z => x ^^^ y ^^^ z
  | 1, x, y, z => (x &&& y) ||| ((4294967295 ^^^ x) &&& z)
  | 2, x, y, z => (x ||| (4294967295 ^^^ y)) ^^^ z
  | 3, x, y, z => (x &&& z) ||| (y &&& (4294967295 ^^^ z))
  | _, x, y, z => x ^^^ (y ||| (4294967295 ^^^ z))

/-- One RIPEMD-160 line: `count` rounds starting at round `j`, with message
order `r`, shifts `s`, group constants `K`, and `left` picking the selection
function direction. -/
def rmdLine (X r s K : List Nat) (left : Bool) :
    Nat → Nat → Nat → Nat → Nat → Nat → Nat → List Nat
  | 0, _, a, b, c, d, e => [a, b, c, d, e]
  | count + 1, j, a, b, c, d, e =>
    let fi := if left then j / 16 else 4 - j / 16
    let t := u32 (rotl32 (s.getD j 0)
      (u32 (a + rmdF fi b c d + X.getD (r.getD j 0) 0 + K.getD (j / 16) 0)) + e)
    rmdLine X r s K left count (j + 1) e t b (rotl32 10 c) d

/-- One RIPEMD-160 block step over a 16-word block. -/
def rmdBlock (st blk : List Nat) : List Nat :=
  let g := fun i => st.getD i 0
  let L := rmdLine blk rmdRL rmdSL rmdKL true 80 0 (g 0) (g 1) (g 2) (g 3) (g 4)
  let R := rmdLine blk rmdRR rmdSR rmdKR false 80 0 (g 0) (g 1) (g 2) (g 3) (g 4)
  let l := fun i => L.getD i 0
  let rr := fun i => R.getD i 0
  [u32 (g 1 + l 2 + rr 3), u32 (g 2 + l 3 + rr 4), u32 (g 3 + l 4 + rr 0),
   u32 (g 4 + l 0 + rr 1), u32 (g 0 + l 1 + rr 2)]

/-- RIPEMD-160 padding: like SHA-256 but with a little-endian bit length. -/
def rmdPad (m : List Nat) : List Nat :=
  m ++ [128] ++ List.replicate ((119 - m.length % 64) % 64) 0 ++ leBytes 8 (8 * m.length)

/-- RIPEMD-160 initial state. -/
def rmdH0 : List Nat := [0x67452301, 0xefcdab89, 0x98badcfe, 0x10325476, 0xc3d2e1f0]

/-- RIPEMD-160 of a byte list, yielding 20 bytes. -/
def ripemd160 (m : List Nat) : List Nat :=
  let ws := leWords (rmdPad m)
  ((chunk16 ws.length ws).foldl rmdBlock rmdH0).map (leBytes 4) |>.flatten

/-- hash160 as used by bitcoin::hashes: RIPEMD-160 of the SHA-256 digest. -/
def hash160 (m : List Nat) : List Nat := ripemd160 (sha256 m)

/-- Base58 alphabet. -/
def b58Alphabet : List Char :=
  "123456789ABCDEFGHJKLMNPQRSTUVWXYZabcdefghijkmnopqrstuvwxyz".toList

/-- Base58 digits of `n`, most significant first; the fuel argument only has
to dominate the digit count. -/
def natToB58 : Nat → Nat → List Char → List Char
  | 0, _, acc => acc
  | _, 0, acc => acc
  | f + 1, n, acc => natToB58 f (n / 58) (b58Alphabet.getD (n % 58) '1' :: acc)

/-- Count of leading zero bytes, which Base58 renders as leading ones. -/
def leadingZeros : List Nat → Nat
  | 0 :: t => leadingZeros t + 1
  | _ => 0

/-- Base58 encoding of a byte list (bitcoin::base58::encode). -/
def base58_encode (data : List Nat) : String :=
  let n := data.foldl (fun acc b => acc * 256 + b) 0
  String.mk (List.replicate (leadingZeros data) '1' ++ natToB58 (2 * data.length + 1) n [])

/-- Base58Check encoding (bitcoin::base58::encode_check): the payload is
suffixed with the first four bytes of its double SHA-256. -/
def base58_encode_check (data : List Nat) : String :=
  base58_encode (data ++ (sha256 (sha256 data)).take 4)

/-- Bech32 data-part alphabet. -/
def bech32Charset : List Char := "qpzry9x8gf2tvdw0s3jn54khce6mua7".toList

/-- BIP-173 polymod step generator contribution. -/
def bech32Gen (b : Nat) : Nat :=
  (if b &&& 1 = 1 then 0x3b6a57b2 else 0) ^^^
  (if (b >>> 1) &&& 1 = 1 then 0x26508e6d else 0) ^^^
  (if (b >>> 2) &&& 1 = 1 then 0x1ea119fa else 0) ^^^
  (if (b >>> 3) &&& 1 = 1 then 0x3d4233dd else 0) ^^^
  (if (b >>> 4) &&& 1 = 1 then 0x2a1462b3 else 0)

/-- BIP-173 checksum polymod. -/
def bech32Polymod (values : List Nat) : Nat :=
  values.foldl (fun chk v =>
    (((chk &&& 0x1ffffff) <<< 5) ^^^ v) ^^^ bech32Gen (chk >>> 25)) 1

/-- BIP-173 human-readable-part expansion. -/
def bech32HrpExpand (hrp : List Char) : List Nat :=
  hrp.map (fun c => c.toNat >>> 5) ++ [0] ++ hrp.map (fun c => c.toNat &&& 31)

/-- BIP-173 checksum (the constant distinguishes Bech32 from Bech32m). -/
def bech32Checksum (hrp : List Char) (data : List Nat) (const : Nat) : List Nat :=
  let pm := bech32Polymod (bech32HrpExpand hrp ++ data ++ [0, 0, 0, 0, 0, 0]) ^^^ const
  (List.range 6).map (fun i => (pm >>> (5 * (5 - i))) &&& 31)

/-- Regroup 8-bit bytes into 5-bit groups, padding the final group with
zero bits; the accumulator invariant keeps fewer than 5 pending bits. -/
def toBase32 : List Nat → Nat → Nat → List Nat
  | [], buf, bits => if bits = 0 then [] else [(buf <<< (5 - bits)) &&& 31]
  | b :: t, buf, bits =>
    let v := (buf <<< 8) ||| b
    let n := bits + 8
    if n ≥ 10 then
      ((v >>> (n - 5)) &&& 31) :: ((v >>> (n - 10)) &&& 31) :: toBase32 t v (n - 10)
    else
      ((v >>> (n - 5)) &&& 31) :: toBase32 t v (n - 5)

/-- Segwit address encoding (bech32 crate segwit::encode): Bech32 for
witness version 0, Bech32m for later versions. -/
def segwit_encode (hrp : List Char) (version : Nat) (program : List Nat) : String :=
  let data := version :: toBase32 program 0 0
  let const := if version = 0 then 1 else 0x2bc830a3
  String.mk (hrp ++ '1' :: (data ++ bech32Checksum hrp data const).map
    (fun v => bech32Charset.getD v 'q'))

/-- Lower-case hex alphabet. -/
def hexChars : List Char := "0123456789abcdef".toList

/-- Lower-case hex encoding of a byte list (hex::encode). -/
def hexEncode (bs : List Nat) : String :=
  String.mk ((bs.map (fun b => [hexChars.getD (b / 16) '0', hexChars.getD (b % 16) '0'])).flatten)

/-- A parsed script instruction, as produced by the rust-bitcoin
instruction iterator: either a data push or a plain (non-push) opcode. -/
inductive Instr where
  | pushBytes (bs : List Nat)
  | op (code : Nat)
deriving DecidableEq, Repr

/-- Opcode of an instruction when a plain opcode was meant
(Instruction::opcode in rust-bitcoin): data pushes yield none. -/
def Instr.opcode : Instr → Option Nat
  | .op b => some b
  | .pushBytes _ => none

/-- Whether an instruction is a data push. -/
def Instr.isPush : Instr → Bool
  | .pushBytes _ => true
  | .op _ => false

/-- Script instruction decoding, mirroring the rust-bitcoin `instructions()`
iterator: bytes 0x00-0x4b push that many following bytes, 0x4c/0x4d/0x4e
read a 1/2/4 byte little-endian length and push that many bytes, everything
else is a plain opcode.  A truncated push ends the iteration with an error,
which the caller drops (`filter_map(Result::ok)`), so the boolean records
whether the whole script decoded.  The fuel argument only has to dominate
the byte count. -/
def parseAux : Nat → List Nat → List Instr × Bool
  | _, [] => ([], true)
  | 0, _ :: _ => ([], false)
  | f + 1, b :: rest =>
    if b ≤ 75 then
      if rest.length < b then ([], false)
      else
        let r := parseAux f (rest.drop b)
        (Instr.pushBytes (rest.take b) :: r.1, r.2)
    else if b = 76 then
      match rest with
      | [] => ([], false)
      | n :: r2 =>
        if r2.length < n then ([], false)
        else
          let r := parseAux f (r2.drop n)
          (Instr.pushBytes (r2.take n) :: r.1, r.2)
    else if b = 77 then
      match rest with
      | n0 :: n1 :: r2 =>
        let n := n0 + 256 * n1
        if r2.length < n then ([], false)
        else
          let r := parseAux f (r2.drop n)
          (Instr.pushBytes (r2.take n) :: r.1, r.2)
      | _ => ([], false)
    else if b = 78 then
      match rest with
      | n0 :: n1 :: n2 :: n3 :: r2 =>
        let n := n0 + 256 * (n1 + 256 * (n2 + 256 * n3))
        if r2.length < n then ([], false)
        else
          let r := parseAux f (r2.drop n)
          (Instr.pushBytes (r2.take n) :: r.1, r.2)
      | _ => ([], false)
    else
      let r := parseAux f rest
      (Instr.op b :: r.1, r.2)

/-- Full decode of a script: the instruction list together with a flag that
is false when the script has an un-decodable tail. -/
def parseScript (s : List Nat) : List Instr × Bool := parseAux s.length s

/-- The instruction list the classifier works on: decode errors dropped. -/
def scriptInstructions (s : List Nat) : List Instr := (parseScript s).1

/-- Script::is_p2pkh on raw bytes: 25 bytes,
OP_DUP OP_HASH160 OP_PUSHBYTES_20 .. OP_EQUALVERIFY OP_CHECKSIG. -/
def is_p2pkh (s : List Nat) : Bool :=
  decide (s.length = 25 ∧ s.getD 0 0 = 118 ∧ s.getD 1 0 = 169 ∧ s.getD 2 0 = 20 ∧
    s.getD 23 0 = 136 ∧ s.getD 24 0 = 172)

/-- Script::is_p2sh on raw bytes: 23 bytes,
OP_HASH160 OP_PUSHBYTES_20 .. OP_EQUAL. -/
def is_p2sh (s : List Nat) : Bool :=
  decide (s.length = 23 ∧ s.getD 0 0 = 169 ∧ s.getD 1 0 = 20 ∧ s.getD 22 0 = 135)

/-- Script::is_witness_program on raw bytes: total length 4 to 42, version
byte OP_0 or OP_PUSHNUM_1..16, then a single direct push covering the rest. -/
def is_witness_program (s : List Nat) : Bool :=
  decide (4 ≤ s.length ∧ s.length ≤ 42 ∧
    (s.getD 0 0 = 0 ∨ (81 ≤ s.getD 0 0 ∧ s.getD 0 0 ≤ 96)) ∧
    2 ≤ s.getD 1 0 ∧ s.getD 1 0 ≤ 40 ∧ s.getD 1 0 = s.length - 2)

/-- Script::is_p2wpkh on raw bytes: version 0 with a 20-byte program. -/
def is_p2wpkh (s : List Nat) : Bool :=
  decide (s.length = 22 ∧ s.getD 0 0 = 0 ∧ s.getD 1 0 = 20)

/-- Script::is_p2wsh on raw bytes: version 0 with a 32-byte program. -/
def is_p2wsh (s : List Nat) : Bool :=
  decide (s.length = 34 ∧ s.getD 0 0 = 0 ∧ s.getD 1 0 = 32)

/-- Minimal JSON value model for serde_json::Value as used here: every
number written by the program is a small non-negative integer, and object
fields are kept in the order the source writes them. -/
inductive Json where
  | str (s : String)
  | num (n : Nat)
  | arr (elems : List Json)
  | obj (fields : List (String × Json))
deriving Repr

/-- Rust Debug names of non-push opcodes 0x61 through 0xb9. -/
def opNameTable : List String :=
  ["OP_NOP", "OP_VER", "OP_IF", "OP_NOTIF", "OP_VERIF", "OP_VERNOTIF",
   "OP_ELSE", "OP_ENDIF", "OP_VERIFY", "OP_RETURN", "OP_TOALTSTACK",
   "OP_FROMALTSTACK", "OP_2DROP", "OP_2DUP", "OP_3DUP", "OP_2OVER",
   "OP_2ROT", "OP_2SWAP", "OP_IFDUP", "OP_DEPTH", "OP_DROP", "OP_DUP",
   "OP_NIP", "OP_OVER", "OP_PICK", "OP_ROLL", "OP_ROT", "OP_SWAP",
   "OP_TUCK", "OP_CAT", "OP_SUBSTR", "OP_LEFT", "OP_RIGHT", "OP_SIZE",
   "OP_INVERT", "OP_AND", "OP_OR", "OP_XOR", "OP_EQUAL", "OP_EQUALVERIFY",
   "OP_RESERVED1", "OP_RESERVED2", "OP_1ADD", "OP_1SUB", "OP_2MUL",
   "OP_2DIV", "OP_NEGATE", "OP_ABS", "OP_NOT", "OP_0NOTEQUAL", "OP_ADD",
   "OP_SUB", "OP_MUL", "OP_DIV", "OP_MOD", "OP_LSHIFT", "OP_RSHIFT",
   "OP_BOOLAND", "OP_BOOLOR", "OP_NUMEQUAL", "OP_NUMEQUALVERIFY",
   "OP_NUMNOTEQUAL", "OP_LESSTHAN", "OP_GREATERTHAN", "OP_LESSTHANOREQUAL",
   "OP_GREATERTHANOREQUAL", "OP_MIN", "OP_MAX", "OP_WITHIN", "OP_RIPEMD160",
   "OP_SHA1", "OP_SHA256", "OP_HASH160", "OP_HASH256", "OP_CODESEPARATOR",
   "OP_CHECKSIG", "OP_CHECKSIGVERIFY", "OP_CHECKMULTISIG",
   "OP_CHECKMULTISIGVERIFY", "OP_NOP1", "OP_CLTV", "OP_CSV", "OP_NOP4",
   "OP_NOP5", "OP_NOP6", "OP_NOP7", "OP_NOP8", "OP_NOP9", "OP_NOP10"]

/-- Rust Debug name of an opcode byte. -/
def opDebugName (b : Nat) : String :=
  if b ≤ 75 then "OP_PUSHBYTES_" ++ Nat.repr b
  else if b = 76 then "OP_PUSHDATA1"
  else if b = 77 then "OP_PUSHDATA2"
  else if b = 78 then "OP_PUSHDATA4"
  else if b = 79 then "OP_PUSHNUM_NEG1"
  else if b = 80 then "OP_RESERVED"
  else if b ≤ 96 then "OP_PUSHNUM_" ++ Nat.repr (b - 80)
  else if b ≤ 185 then opNameTable.getD (b - 97) ""
  else if b ≤ 254 then "OP_RETURN_" ++ Nat.repr b
  else "OP_INVALIDOPCODE"

/-- Opcode stringification used when the classifier records a script
pattern: pushes render as PUSH(n bytes), other opcodes by Debug name. -/
def stringifyInstr : Instr → String
  | .pushBytes bs => "PUSH(" ++ Nat.repr bs.length ++ " bytes)"
  | .op b => opDebugName b

/-- Result record of the script classifier (struct ScriptInfo). -/
structure ScriptInfo where
  address : String
  script_type : String
  extra_data : Option Json
deriving Repr

/-- Rules 1 to 4 of the classifier: the leading if / else-if chain of
extract_address_from_script (P2PKH, P2SH, P2PK, witness programs).  A
`none` result means the chain fell through to the P2MS section; on every
reachable bech32 call the program length is valid, so the encoding-error
paths of the source (which return None) are dead and not represented. -/
def classifyStd (s : List Nat) (instrs : List Instr) : Option ScriptInfo :=
  if is_p2pkh s then
    match instrs[2]? with
    | some (Instr.pushBytes h) =>
      if h.length = 20 then
        some ⟨base58_encode_check (0 :: h), "p2pkh", none⟩
      else none
    | _ => none
  else if is_p2sh s then
    match instrs[1]? with
    | some (Instr.pushBytes h) =>
      if h.length = 20 then
        some ⟨base58_encode_check (5 :: h), "p2sh", none⟩
      else none
    | _ => none
  else if instrs.length = 2 ∧ (instrs.getD 0 (.op 0)).isPush = true ∧
      (instrs.getD 1 (.op 0)).opcode = some 172 then
    match instrs[0]? with
    | some (Instr.pushBytes pk) =>
      if pk.length = 33 ∨ pk.length = 65 then
        some ⟨hexEncode pk, "p2pk",
          some (Json.obj [("pubkey_format",
            Json.str (if pk.length = 33 then "compressed" else "uncompressed"))])⟩
      else none
    | _ => none
  else if is_witness_program s then
    if is_p2wpkh s then
      match instrs[1]? with
      | some (Instr.pushBytes w) =>
        if w.length = 20 then
          some ⟨segwit_encode "bc".toList 0 w, "p2wpkh", none⟩
        else none
      | _ => none
    else if is_p2wsh s then
      match instrs[1]? with
      | some (Instr.pushBytes w) =>
        if w.length = 32 then
          some ⟨segwit_encode "bc".toList 0 w, "p2wsh", none⟩
        else none
      | _ => none
    else if instrs.length = 2 ∧ (instrs.getD 0 (.op 0)).opcode = some 81 ∧
        (match instrs[1]? with | some (Instr.pushBytes b) => b.length == 32 | _ => false) = true then
      match instrs[1]? with
      | some (Instr.pushBytes key) =>
        some ⟨segwit_encode "bc".toList 1 key, "p2tr", none⟩
      | _ => none
    else none
  else none

/-- Decoding of the m and n opcodes of a standard P2MS script:
OP_PUSHNUM_1..3 only, anything else makes the classifier return None. -/
def msNum : Nat → Option Nat
  | 81 => some 1
  | 82 => some 2
  | 83 => some 3
  | _ => none

/-- Rule 5, the P2MS section: `some r` means the source returns `r`
(which is `none` on the invalid m or n early exits), `none` means the
section fell through to the non-standard rules. -/
def classifyMs (s : List Nat) (instrs : List Instr) : Option (Option ScriptInfo) :=
  if 4 ≤ instrs.length ∧
      (match instrs.getLast? with | some i => i.opcode == some 174 | none => false) = true then
    match instrs.head?.bind Instr.opcode, (instrs[instrs.length - 2]?).bind Instr.opcode with
    | some f, some n =>
      match msNum f with
      | none => some none
      | some m =>
        match msNum n with
        | none => some none
        | some nv =>
          if m ≤ nv ∧ instrs.length = nv + 3 then
            some (some ⟨base58_encode_check (5 :: hash160 s), "p2ms",
              some (Json.obj [("m", Json.num m), ("n", Json.num nv)])⟩)
          else none
    | _, _ => none
  else none

/-- Rule 6: non-standard P2PKH prefix with trailing operations. -/
def classifyPlus (instrs : List Instr) : Option ScriptInfo :=
  if 5 < instrs.length ∧ (instrs.getD 0 (.op 0)).opcode = some 118 ∧
      (instrs.getD 1 (.op 0)).opcode = some 169 ∧
      (instrs.getD 2 (.op 0)).isPush = true ∧
      (instrs.getD 3 (.op 0)).opcode = some 136 ∧
      (instrs.getD 4 (.op 0)).opcode = some 172 then
    match instrs[2]? with
    | some (Instr.pushBytes h) =>
      if h.length = 20 then
        let script_ops := instrs.map stringifyInstr
        let extra_ops := if 5 < instrs.length then script_ops.drop 5 else []
        some ⟨base58_encode_check (0 :: h), "non-standard",
          some (Json.obj [("pattern", Json.str "p2pkh-plus"),
                          ("extra_ops", Json.arr (extra_ops.map Json.str))])⟩
      else none
    | _ => none
  else none

/-- Rule 7 scan: first 20-byte push wins, with its instruction index. -/
def scanAux (all : List Instr) : List Instr → Nat → Option ScriptInfo
  | [], _ => none
  | .pushBytes h :: rest, idx =>
    if h.length = 20 then
      some ⟨base58_encode_check (0 :: h), "non-standard",
        some (Json.obj [("pattern", Json.str "hash160-found"),
                        ("hash_position", Json.num idx),
                        ("script_ops", Json.arr ((all.map stringifyInstr).map Json.str))])⟩
    else scanAux all rest (idx + 1)
  | .op _ :: rest, idx => scanAux all rest (idx + 1)

/-- Rule 7: generic non-standard script containing a 20-byte push. -/
def classifyScan (instrs : List Instr) : Option ScriptInfo :=
  scanAux instrs instrs 0

/-- Rule 8 and 9: hash the whole script when it is non-empty, otherwise
report nothing. -/
def classifyUnknown (s : List Nat) (instrs : List Instr) : Option ScriptInfo :=
  if s.isEmpty then none
  else
    some ⟨base58_encode_check (5 :: hash160 s), "unknown",
      some (Json.obj [("script_pattern",
        Json.arr ((instrs.map stringifyInstr).map Json.str))])⟩

/-- Translation of extract_address_from_script (processor.rs): classify an
output script into an address record, following the source's rule order
and fall-through structure. -/
def extract_address_from_script (s : List Nat) : Option ScriptInfo :=
  match classifyStd s (scriptInstructions s) with
  | some r => some r
  | none =>
    match classifyMs s (scriptInstructions s) with
    | some r => r
    | none =>
      match classifyPlus (scriptInstructions s) with
      | some r => some r
      | none =>
        match classifyScan (scriptInstructions s) with
        | some r => some r
        | none => classifyUnknown s (scriptInstructions s)

/-- Translation of extract_public_key_from_script (processor.rs): a
scriptSig decoding to exactly two pushes whose second push is 33 or 65
bytes reveals that push as the spender's public key. -/
def extract_public_key_from_script (s : List Nat) : Option (List Nat) :=
  let instrs := scriptInstructions s
  if instrs.length = 2 ∧ (instrs.getD 0 (.op 0)).isPush = true ∧
      (instrs.getD 1 (.op 0)).isPush = true then
    match instrs[1]? with
    | some (Instr.pushBytes pk) =>
      if pk.length = 33 ∨ pk.length = 65 then some pk else none
    | _ => none
  else none

/-- Row of the addresses table (schema.rs); counters start at 0, the
exposure flag at false, per the column defaults the spec gives for rows
freshly created by get_or_create_address. -/
structure AddressRow where
  address_id : Nat
  address_string : String
  script_type : String
  first_seen_block_height : Nat
  total_receive_count : Nat
  total_spend_count : Nat
  is_public_key_exposed : Bool
  public_key : Option (List Nat)
  script_extra_data : Option Json

/-- Row of the blocks table. -/
structure BlockRow where
  block_height : Nat
  block_hash : List Nat
  block_timestamp : Int
  transaction_count : Nat
deriving DecidableEq

/-- Row of the transactions table. -/
structure TxRow where
  transaction_id : List Nat
  block_height : Nat
  transaction_index : Nat
  is_coinbase : Bool
  fee_satoshis : Option Int
  input_count : Nat
  output_count : Nat
deriving DecidableEq

/-- Row of the address_outputs table. -/
structure OutputRow where
  output_id : Nat
  address_id : Nat
  transaction_id : List Nat
  block_height : Nat
  output_index : Nat
  value_satoshis : Int
  is_spent : Bool
  spending_input_id : Option Nat
deriving DecidableEq

/-- Row of the address_inputs table. -/
structure InputRow where
  input_id : Nat
  address_id : Nat
  transaction_id : List Nat
  block_height : Nat
  input_index : Nat
  spent_output_id : Nat
  value_satoshis : Int
  public_key_revealed : Option (List Nat)
deriving DecidableEq

/-- The store state: table contents in row-insertion order plus the serial
id counters behind the auto-generated keys.  Transaction ids travel as raw
bytes; the hex encode/decode pair between processor.rs and db.rs cancels
and is elided. -/
structure Db where
  blocks : List BlockRow
  transactions : List TxRow
  txid_block_index : List (List Nat × Nat)
  addresses : List AddressRow
  address_outputs : List OutputRow
  address_inputs : List InputRow
  next_address_id : Nat
  next_output_id : Nat
  next_input_id : Nat

/-- The freshly-migrated store. -/
def emptyDb : Db := ⟨[], [], [], [], [], [], 0, 0, 0⟩

/-- store_processed_block (db.rs): insert keyed by height, updating hash,
timestamp and count on conflict. -/
def store_processed_block (db : Db) (h : Nat) (hash : List Nat) (ts : Int) (cnt : Nat) : Db :=
  if db.blocks.any (fun r => r.block_height == h) then
    { db with blocks := db.blocks.map (fun r =>
        if r.block_height == h then
          { r with block_hash := hash, block_timestamp := ts, transaction_count := cnt }
        else r) }
  else
    { db with blocks := db.blocks ++ [⟨h, hash, ts, cnt⟩] }

/-- add_txid_to_index (db.rs): insert keyed by (txid, height), do nothing
on conflict. -/
def add_txid_to_index (db : Db) (txid : List Nat) (h : Nat) : Db :=
  if db.txid_block_index.any (fun r => r.1 == txid && r.2 == h) then db
  else { db with txid_block_index := db.txid_block_index ++ [(txid, h)] }

/-- store_transaction (db.rs): insert keyed by (txid, height), do nothing
on conflict; always followed by the txid index insert. -/
def store_transaction (db : Db) (h idx : Nat) (txid : List Nat) (cb : Bool)
    (ic oc : Nat) (fee : Option Int) : Db :=
  add_txid_to_index
    (if db.transactions.any (fun r => r.transaction_id == txid && r.block_height == h) then db
     else { db with transactions := db.transactions ++ [⟨txid, h, idx, cb, fee, ic, oc⟩] })
    txid h

/-- get_or_create_address (db.rs): look the address string up first and
return the stored id untouched; otherwise insert a fresh row (serial id,
counters at their column defaults, no public key). -/
def get_or_create_address (db : Db) (a st : String) (h : Nat) (extra : Option Json) :
    Nat × Db :=
  match db.addresses.find? (fun r => r.address_string == a) with
  | some r => (r.address_id, db)
  | none =>
    (db.next_address_id,
     { db with
        addresses := db.addresses ++ [⟨db.next_address_id, a, st, h, 0, 0, false, none, extra⟩],
        next_address_id := db.next_address_id + 1 })

/-- update_address_receive_count (db.rs): bump the receive counter of the
rows with the given address id. -/
def update_address_receive_count (db : Db) (aid : Nat) : Db :=
  { db with addresses := db.addresses.map (fun r =>
      if r.address_id == aid then { r with total_receive_count := r.total_receive_count + 1 }
      else r) }

/-- update_address_spend_count (db.rs): bump the spend counter of the rows
with the given address id. -/
def update_address_spend_count (db : Db) (aid : Nat) : Db :=
  { db with addresses := db.addresses.map (fun r =>
      if r.address_id == aid then { r with total_spend_count := r.total_spend_count + 1 }
      else r) }

/-- update_address_public_key (db.rs): store the revealed key and raise
the exposure flag; the source puts no condition on the previously stored
value. -/
def update_address_public_key (db : Db) (aid : Nat) (pk : List Nat) : Db :=
  { db with addresses := db.addresses.map (fun r =>
      if r.address_id == aid then
        { r with public_key := some pk, is_public_key_exposed := true }
      else r) }

/-- store_transaction_output (db.rs): plain insert of a fresh unspent
output row (no conflict clause), then the receive-counter bump. -/
def store_transaction_output (db : Db) (aid : Nat) (txid : List Nat) (h vout : Nat)
    (value : Int) : Nat × Db :=
  let oid := db.next_output_id
  let db1 := { db with
    address_outputs := db.address_outputs ++ [⟨oid, aid, txid, h, vout, value, false, none⟩],
    next_output_id := oid + 1 }
  (oid, update_address_receive_count db1 aid)

/-- Inner loop of find_output: probe the candidate heights in order for an
unspent output with the wanted txid and index; rows are probed in
insertion order, standing in for the unspecified SQL result order. -/
def findOutputInHeights (db : Db) (txid : List Nat) (vout : Nat) :
    List Nat → Option (Nat × Nat × Int)
  | [] => none
  | h :: rest =>
    match db.address_outputs.find? (fun o =>
        o.transaction_id == txid && o.block_height == h &&
        o.output_index == vout && o.is_spent == false) with
    | some o => some (o.output_id, o.address_id, o.value_satoshis)
    | none => findOutputInHeights db txid vout rest

/-- find_output (db.rs): candidate heights come from the txid index; the
first unspent hit wins.  Returns (output_id, address_id, value). -/
def find_output (db : Db) (txid : List Nat) (vout : Nat) : Option (Nat × Nat × Int) :=
  findOutputInHeights db txid vout
    ((db.txid_block_index.filter (fun r => r.1 == txid)).map (fun r => r.2))

/-- store_transaction_input (db.rs): insert a fresh input row, bump the
spend counter, and, when a public key was revealed, store it on the
address row. -/
def store_transaction_input (db : Db) (aid : Nat) (txid : List Nat) (h idx oid : Nat)
    (value : Int) (pk : Option (List Nat)) : Nat × Db :=
  let iid := db.next_input_id
  let db1 := { db with
    address_inputs := db.address_inputs ++ [⟨iid, aid, txid, h, idx, oid, value, pk⟩],
    next_input_id := iid + 1 }
  let db2 := update_address_spend_count db1 aid
  (iid, match pk with
        | some p => update_address_public_key db2 aid p
        | none => db2)

/-- mark_output_spent (db.rs): set the spent flag and the spending input
id on the rows with the given output id. -/
def mark_output_spent (db : Db) (oid iid : Nat) : Db :=
  { db with address_outputs := db.address_outputs.map (fun o =>
      if o.output_id == oid then { o with is_spent := true, spending_input_id := some iid }
      else o) }

/-- A transaction output as the processor sees it. -/
structure TxOut where
  value : Int
  script_pubkey : List Nat

/-- A transaction input as the processor sees it. -/
structure TxIn where
  prev_txid : List Nat
  prev_vout : Nat
  script_sig : List Nat

/-- A transaction as the processor sees it; the txid is the computed id
(bytes of its displayed hex form) and the coinbase flag comes from the
bitcoin crate. -/
structure Tx where
  txid : List Nat
  is_coinbase : Bool
  inputs : List TxIn
  outputs : List TxOut

/-- A block as fetched from the node. -/
structure BlockData where
  block_hash : List Nat
  time : Int
  txdata : List Tx

/-- Effect of one output of a transaction (body of the loop in
process_transaction_outputs): classify the output script; on a hit, get or
create the address and store the output; on None skip silently. -/
def processOneOutput (h : Nat) (txid : List Nat) (db : Db) (vout : Nat) (o : TxOut) : Db :=
  match extract_address_from_script o.script_pubkey with
  | some info =>
    let r := get_or_create_address db info.address info.script_type h info.extra_data
    (store_transaction_output r.2 r.1 txid h vout o.value).2
  | none => db

/-- Output loop of process_transaction_outputs (processor.rs), with the
enumeration index made explicit. -/
def processOutputsFrom (h : Nat) (txid : List Nat) : Db → Nat → List TxOut → Db
  | db, _, [] => db
  | db, vout, o :: rest =>
    processOutputsFrom h txid (processOneOutput h txid db vout o) (vout + 1) rest

/-- process_transaction_outputs (processor.rs). -/
def process_transaction_outputs (db : Db) (h : Nat) (txid : List Nat) (tx : Tx) : Db :=
  processOutputsFrom h txid db 0 tx.outputs

/-- Effect of one input (body of the loop in process_transaction_inputs):
match the input to a prior unspent output; on a hit, store the input (with
any revealed public key) and mark the output spent; misses are skipped. -/
def processOneInput (h : Nat) (txid : List Nat) (db : Db) (idx : Nat) (inp : TxIn) : Db :=
  match find_output db inp.prev_txid inp.prev_vout with
  | some oi =>
    let pk := extract_public_key_from_script inp.script_sig
    let r := store_transaction_input db oi.2.1 txid h idx oi.1 oi.2.2 pk
    mark_output_spent r.2 oi.1 r.1
  | none => db

/-- Input loop of process_transaction_inputs (processor.rs), with the
enumeration index made explicit. -/
def processInputsFrom (h : Nat) (txid : List Nat) : Db → Nat → List TxIn → Db
  | db, _, [] => db
  | db, idx, inp :: rest =>
    processInputsFrom h txid (processOneInput h txid db idx inp) (idx + 1) rest

/-- process_transaction_inputs (processor.rs). -/
def process_transaction_inputs (db : Db) (h : Nat) (txid : List Nat) (tx : Tx) : Db :=
  processInputsFrom h txid db 0 tx.inputs

/-- Effect of one transaction (body of the loop in
process_block_transactions): store the record (fee hardcoded to 0), then
outputs, then inputs unless coinbase. -/
def processOneTx (h : Nat) (db : Db) (i : Nat) (tx : Tx) : Db :=
  if tx.is_coinbase then
    process_transaction_outputs
      (store_transaction db h i tx.txid tx.is_coinbase tx.inputs.length
        tx.outputs.length (some 0)) h tx.txid tx
  else
    process_transaction_inputs
      (process_transaction_outputs
        (store_transaction db h i tx.txid tx.is_coinbase tx.inputs.length
          tx.outputs.length (some 0)) h tx.txid tx) h tx.txid tx

/-- Transaction loop of process_block_transactions (processor.rs), with
the enumeration index made explicit. -/
def processTxsFrom (h : Nat) : Db → Nat → List Tx → Db
  | db, _, [] => db
  | db, i, tx :: rest => processTxsFrom h (processOneTx h db i tx) (i + 1) rest

/-- process_block_transactions (processor.rs). -/
def process_block_transactions (db : Db) (h : Nat) (txs : List Tx) : Db :=
  processTxsFrom h db 0 txs

/-- process_single_block (processor.rs): one atomic commit storing the
block row and all its transactions. -/
def process_single_block (db : Db) (h : Nat) (b : BlockData) : Db :=
  process_block_transactions
    (store_processed_block db h b.block_hash b.time b.txdata.length) h b.txdata

/-- Catch-up loop body of process_all_blocks (processor.rs): process the
heights cur, cur+1, ... while they do not exceed the tip bound fixed at
entry; after every height whose successor is a multiple of 100, the tip is
probed again (probe call k) but the bound is left as is.  Returns the
processed heights and the observed re-probe values.  Per-block processing
is taken as succeeding (a failure aborts the whole batch).  The fuel is
one more than the remaining heights, so the recursion mirrors the while
loop exactly. -/
def syncAux (probe : Nat → Nat) (tip : Nat) : Nat → Nat → Nat → List Nat × List Nat
  | 0, _, _ => ([], [])
  | fuel + 1, cur, k =>
    if cur ≤ tip then
      if (cur + 1) % 100 = 0 then
        let t := probe k
        let r := syncAux probe tip fuel (cur + 1) (k + 1)
        (cur :: r.1, t :: r.2)
      else
        let r := syncAux probe tip fuel (cur + 1) k
        (cur :: r.1, r.2)
    else ([], [])

/-- process_all_blocks (processor.rs): probe the tip once (probe call 0),
return immediately when the start height is already past it, otherwise run
the sync loop against that fixed tip. -/
def process_all_blocks (probe : Nat → Nat) (start : Nat) : List Nat × List Nat :=
  let tip := probe 0
  if start > tip then ([], [])
  else syncAux probe tip (tip + 1 - start) start 1

/-- One store write, for quantifying over sequences of store operations. -/
inductive DbOp where
  | storeBlock (h : Nat) (hash : List Nat) (ts : Int) (cnt : Nat)
  | storeTx (h idx : Nat) (txid : List Nat) (cb : Bool) (ic oc : Nat) (fee : Option Int)
  | getOrCreate (a st : String) (h : Nat) (extra : Option Json)
  | storeOutput (aid : Nat) (txid : List Nat) (h vout : Nat) (value : Int)
  | storeInput (aid : Nat) (txid : List Nat) (h idx oid : Nat) (value : Int)
      (pk : Option (List Nat))
  | markSpent (oid iid : Nat)

/-- Effect of one store write on the database state. -/
def applyDbOp (db : Db) : DbOp → Db
  | .storeBlock h hash ts cnt => store_processed_block db h hash ts cnt
  | .storeTx h idx txid cb ic oc fee => store_transaction db h idx txid cb ic oc fee
  | .getOrCreate a st h x => (get_or_create_address db a st h x).2
  | .storeOutput aid txid h vout v => (store_transaction_output db aid txid h vout v).2
  | .storeInput aid txid h idx oid v pk => (store_transaction_input db aid txid h idx oid v pk).2
  | .markSpent oid iid => mark_output_spent db oid iid

/-- Effect of a sequence of store writes. -/
def applyDbOps (db : Db) (ops : List DbOp) : Db := ops.foldl applyDbOp db

/-- Invariant I5 of the spec: each address row's counters agree with the
row counts of its outputs and inputs. -/
def CountersCorrect (db : Db) : Prop :=
  ∀ r ∈ db.addresses,
    r.total_receive_count =
      (db.address_outputs.filter (fun o => o.address_id == r.address_id)).length ∧
    r.total_spend_count =
      (db.address_inputs.filter (fun i => i.address_id == r.address_id)).length

@[simp] theorem store_processed_block_transactions (db : Db) (h : Nat) (hs : List Nat)
    (ts : Int) (c : Nat) : (store_processed_block db h hs ts c).transactions = db.transactions := by
  unfold store_processed_block; split <;> rfl

@[simp] theorem store_processed_block_index (db : Db) (h : Nat) (hs : List Nat)
    (ts : Int) (c : Nat) :
    (store_processed_block db h hs ts c).txid_block_index = db.txid_block_index := by
  unfold store_processed_block; split <;> rfl

@[simp] theorem store_processed_block_addresses (db : Db) (h : Nat) (hs : List Nat)
    (ts : Int) (c : Nat) : (store_processed_block db h hs ts c).addresses = db.addresses := by
  unfold store_processed_block; split <;> rfl

@[simp] theorem store_processed_block_outputs (db : Db) (h : Nat) (hs : List Nat)
    (ts : Int) (c : Nat) :
    (store_processed_block db h hs ts c).address_outputs = db.address_outputs := by
  unfold store_processed_block; split <;> rfl

@[simp] theorem store_processed_block_inputs (db : Db) (h : Nat) (hs : List Nat)
    (ts : Int) (c : Nat) :
    (store_processed_block db h hs ts c).address_inputs = db.address_inputs := by
  unfold store_processed_block; split <;> rfl

@[simp] theorem store_processed_block_next_address (db : Db) (h : Nat) (hs : List Nat)
    (ts : Int) (c : Nat) :
    (store_processed_block db h hs ts c).next_address_id = db.next_address_id := by
  unfold store_processed_block; split <;> rfl

@[simp] theorem add_txid_to_index_blocks (db : Db) (t : List Nat) (h : Nat) :
    (add_txid_to_index db t h).blocks = db.blocks := by
  unfold add_txid_to_index; split <;> rfl

@[simp] theorem add_txid_to_index_transactions (db : Db) (t : List Nat) (h : Nat) :
    (add_txid_to_index db t h).transactions = db.transactions := by
  unfold add_txid_to_index; split <;> rfl

@[simp] theorem add_txid_to_index_addresses (db : Db) (t : List Nat) (h : Nat) :
    (add_txid_to_index db t h).addresses = db.addresses := by
  unfold add_txid_to_index; split <;> rfl

@[simp] theorem add_txid_to_index_outputs (db : Db) (t : List Nat) (h : Nat) :
    (add_txid_to_index db t h).address_outputs = db.address_outputs := by
  unfold add_txid_to_index; split <;> rfl

@[simp] theorem add_txid_to_index_inputs (db : Db) (t : List Nat) (h : Nat) :
    (add_txid_to_index db t h).address_inputs = db.address_inputs := by
  unfold add_txid_to_index; split <;> rfl

@[simp] theorem add_txid_to_index_next_address (db : Db) (t : List Nat) (h : Nat) :
    (add_txid_to_index db t h).next_address_id = db.next_address_id := by
  unfold add_txid_to_index; split <;> rfl

@[simp] theorem store_transaction_blocks (db : Db) (h i : Nat) (t : List Nat) (cb : Bool)
    (ic oc : Nat) (fee : Option Int) :
    (store_transaction db h i t cb ic oc fee).blocks = db.blocks := by
  unfold store_transaction; split <;> simp

@[simp] theorem store_transaction_addresses (db : Db) (h i : Nat) (t : List Nat) (cb : Bool)
    (ic oc : Nat) (fee : Option Int) :
    (store_transaction db h i t cb ic oc fee).addresses = db.addresses := by
  unfold store_transaction; split <;> simp

@[simp] theorem store_transaction_outputs_table (db : Db) (h i : Nat) (t : List Nat) (cb : Bool)
    (ic oc : Nat) (fee : Option Int) :
    (store_transaction db h i t cb ic oc fee).address_outputs = db.address_outputs := by
  unfold store_transaction; split <;> simp

@[simp] theorem store_transaction_inputs_table (db : Db) (h i : Nat) (t : List Nat) (cb : Bool)
    (ic oc : Nat) (fee : Option Int) :
    (store_transaction db h i t cb ic oc fee).address_inputs = db.address_inputs := by
  unfold store_transaction; split <;> simp

@[simp] theorem store_transaction_next_address (db : Db) (h i : Nat) (t : List Nat) (cb : Bool)
    (ic oc : Nat) (fee : Option Int) :
    (store_transaction db h i t cb ic oc fee).next_address_id = db.next_address_id := by
  unfold store_transaction; split <;> simp

@[simp] theorem get_or_create_address_blocks (db : Db) (a st : String) (h : Nat)
    (x : Option Json) : (get_or_create_address db a st h x).2.blocks = db.blocks := by
  unfold get_or_create_address; split <;> rfl

@[simp] theorem get_or_create_address_transactions (db : Db) (a st : String) (h : Nat)
    (x : Option Json) : (get_or_create_address db a st h x).2.transactions = db.transactions := by
  unfold get_or_create_address; split <;> rfl

@[simp] theorem get_or_create_address_index (db : Db) (a st : String) (h : Nat)
    (x : Option Json) :
    (get_or_create_address db a st h x).2.txid_block_index = db.txid_block_index := by
  unfold get_or_create_address; split <;> rfl

@[simp] theorem get_or_create_address_outputs (db : Db) (a st : String) (h : Nat)
    (x : Option Json) :
    (get_or_create_address db a st h x).2.address_outputs = db.address_outputs := by
  unfold get_or_create_address; split <;> rfl

@[simp] theorem get_or_create_address_inputs (db : Db) (a st : String) (h : Nat)
    (x : Option Json) :
    (get_or_create_address db a st h x).2.address_inputs = db.address_inputs := by
  unfold get_or_create_address; split <;> rfl

@[simp] theorem update_address_receive_count_proj (db : Db) (aid : Nat) :
    (update_address_receive_count db aid).blocks = db.blocks ∧
    (update_address_receive_count db aid).transactions = db.transactions ∧
    (update_address_receive_count db aid).txid_block_index = db.txid_block_index ∧
    (update_address_receive_count db aid).address_outputs = db.address_outputs ∧
    (update_address_receive_count db aid).address_inputs = db.address_inputs ∧
    (update_address_receive_count db aid).next_address_id = db.next_address_id :=
  ⟨rfl, rfl, rfl, rfl, rfl, rfl⟩

@[simp] theorem update_address_receive_count_length (db : Db) (aid : Nat) :
    (update_address_receive_count db aid).addresses.length = db.addresses.length := by
  simp [update_address_receive_count]

@[simp] theorem update_address_spend_count_length (db : Db) (aid : Nat) :
    (update_address_spend_count db aid).addresses.length = db.addresses.length := by
  simp [update_address_spend_count]

@[simp] theorem update_address_public_key_length (db : Db) (aid : Nat) (pk : List Nat) :
    (update_address_public_key db aid pk).addresses.length = db.addresses.length := by
  simp [update_address_public_key]

@[simp] theorem update_address_spend_count_outputs (db : Db) (aid : Nat) :
    (update_address_spend_count db aid).address_outputs = db.address_outputs := rfl

@[simp] theorem update_address_spend_count_inputs (db : Db) (aid : Nat) :
    (update_address_spend_count db aid).address_inputs = db.address_inputs := rfl

@[simp] theorem update_address_spend_count_blocks (db : Db) (aid : Nat) :
    (update_address_spend_count db aid).blocks = db.blocks := rfl

@[simp] theorem update_address_spend_count_transactions (db : Db) (aid : Nat) :
    (update_address_spend_count db aid).transactions = db.transactions := rfl

@[simp] theorem update_address_spend_count_idx (db : Db) (aid : Nat) :
    (update_address_spend_count db aid).txid_block_index = db.txid_block_index := rfl

@[simp] theorem update_address_public_key_outputs (db : Db) (aid : Nat) (pk : List Nat) :
    (update_address_public_key db aid pk).address_outputs = db.address_outputs := rfl

@[simp] theorem update_address_public_key_inputs (db : Db) (aid : Nat) (pk : List Nat) :
    (update_address_public_key db aid pk).address_inputs = db.address_inputs := rfl

@[simp] theorem update_address_receive_count_outputs (db : Db) (aid : Nat) :
    (update_address_receive_count db aid).address_outputs = db.address_outputs := rfl

@[simp] theorem update_address_receive_count_inputs (db : Db) (aid : Nat) :
    (update_address_receive_count db aid).address_inputs = db.address_inputs := rfl

@[simp] theorem store_transaction_output_blocks (db : Db) (aid : Nat) (t : List Nat)
    (h v : Nat) (val : Int) :
    (store_transaction_output db aid t h v val).2.blocks = db.blocks := rfl

@[simp] theorem store_transaction_output_transactions (db : Db) (aid : Nat) (t : List Nat)
    (h v : Nat) (val : Int) :
    (store_transaction_output db aid t h v val).2.transactions = db.transactions := rfl

@[simp] theorem store_transaction_output_index (db : Db) (aid : Nat) (t : List Nat)
    (h v : Nat) (val : Int) :
    (store_transaction_output db aid t h v val).2.txid_block_index = db.txid_block_index := rfl

@[simp] theorem store_transaction_output_inputs (db : Db) (aid : Nat) (t : List Nat)
    (h v : Nat) (val : Int) :
    (store_transaction_output db aid t h v val).2.address_inputs = db.address_inputs := rfl

@[simp] theorem store_transaction_output_next_address (db : Db) (aid : Nat) (t : List Nat)
    (h v : Nat) (val : Int) :
    (store_transaction_output db aid t h v val).2.next_address_id = db.next_address_id := rfl

@[simp] theorem store_transaction_output_addresses_length (db : Db) (aid : Nat) (t : List Nat)
    (h v : Nat) (val : Int) :
    (store_transaction_output db aid t h v val).2.addresses.length = db.addresses.length := by
  simp [store_transaction_output]

@[simp] theorem store_transaction_output_outputs_length (db : Db) (aid : Nat) (t : List Nat)
    (h v : Nat) (val : Int) :
    (store_transaction_output db aid t h v val).2.address_outputs.length =
      db.address_outputs.length + 1 := by
  simp [store_transaction_output, update_address_receive_count]

@[simp] theorem store_transaction_input_blocks (db : Db) (aid : Nat) (t : List Nat)
    (h i oid : Nat) (val : Int) (pk : Option (List Nat)) :
    (store_transaction_input db aid t h i oid val pk).2.blocks = db.blocks := by
  unfold store_transaction_input; cases pk <;> rfl

@[simp] theorem store_transaction_input_transactions (db : Db) (aid : Nat) (t : List Nat)
    (h i oid : Nat) (val : Int) (pk : Option (List Nat)) :
    (store_transaction_input db aid t h i oid val pk).2.transactions = db.transactions := by
  unfold store_transaction_input; cases pk <;> rfl

@[simp] theorem store_transaction_input_index (db : Db) (aid : Nat) (t : List Nat)
    (h i oid : Nat) (val : Int) (pk : Option (List Nat)) :
    (store_transaction_input db aid t h i oid val pk).2.txid_block_index =
      db.txid_block_index := by
  unfold store_transaction_input; cases pk <;> rfl

@[simp] theorem store_transaction_input_outputs (db : Db) (aid : Nat) (t : List Nat)
    (h i oid : Nat) (val : Int) (pk : Option (List Nat)) :
    (store_transaction_input db aid t h i oid val pk).2.address_outputs =
      db.address_outputs := by
  unfold store_transaction_input; cases pk <;> rfl

@[simp] theorem store_transaction_input_next_address (db : Db) (aid : Nat) (t : List Nat)
    (h i oid : Nat) (val : Int) (pk : Option (List Nat)) :
    (store_transaction_input db aid t h i oid val pk).2.next_address_id =
      db.next_address_id := by
  unfold store_transaction_input; cases pk <;> rfl

@[simp] theorem store_transaction_input_addresses_length (db : Db) (aid : Nat) (t : List Nat)
    (h i oid : Nat) (val : Int) (pk : Option (List Nat)) :
    (store_transaction_input db aid t h i oid val pk).2.addresses.length =
      db.addresses.length := by
  unfold store_transaction_input; cases pk <;> simp [update_address_spend_count,
    update_address_public_key]

@[simp] theorem store_transaction_input_outputs_length (db : Db) (aid : Nat) (t : List Nat)
    (h i oid : Nat) (val : Int) (pk : Option (List Nat)) :
    (store_transaction_input db aid t h i oid val pk).2.address_outputs.length =
      db.address_outputs.length := by
  simp

@[simp] theorem mark_output_spent_blocks (db : Db) (o i : Nat) :
    (mark_output_spent db o i).blocks = db.blocks := rfl

@[simp] theorem mark_output_spent_transactions (db : Db) (o i : Nat) :
    (mark_output_spent db o i).transactions = db.transactions := rfl

@[simp] theorem mark_output_spent_index (db : Db) (o i : Nat) :
    (mark_output_spent db o i).txid_block_index = db.txid_block_index := rfl

@[simp] theorem mark_output_spent_addresses (db : Db) (o i : Nat) :
    (mark_output_spent db o i).addresses = db.addresses := rfl

@[simp] theorem mark_output_spent_inputs (db : Db) (o i : Nat) :
    (mark_output_spent db o i).address_inputs = db.address_inputs := rfl

@[simp] theorem mark_output_spent_next_address (db : Db) (o i : Nat) :
    (mark_output_spent db o i).next_address_id = db.next_address_id := rfl

@[simp] theorem mark_output_spent_outputs_length (db : Db) (o i : Nat) :
    (mark_output_spent db o i).address_outputs.length = db.address_outputs.length := by
  simp [mark_output_spent]

/-- C10: calling get_or_create_address with an address string that is
already stored returns the stored address id and leaves the database, and
hence every stored field of the address row, unchanged, whatever the
script type, height or extra data arguments are. -/
theorem get_or_create_address_existing_frame (db : Db) (a st : String) (h : Nat)
    (x : Option Json) (r : AddressRow)
    (hf : db.addresses.find? (fun row => row.address_string == a) = some r) :
    get_or_create_address db a st h x = (r.address_id, db) := by
  unfold get_or_create_address
  rw [hf]

/-- Database holding one address row, for the C10 witness. -/
def dbC10 : Db := (get_or_create_address emptyDb "1witness" "p2pkh" 3 none).2

theorem get_or_create_address_existing_frame_witness :
    get_or_create_address dbC10 "1witness" "unknown" 9 none = (0, dbC10) :=
  get_or_create_address_existing_frame dbC10 "1witness" "unknown" 9 none
    ⟨0, "1witness", "p2pkh", 3, 0, 0, false, none, none⟩ rfl

/-- Push contents of a script in order, as the C7 claim counts them. -/
def scriptPushes (s : List Nat) : List (List Nat) :=
  (scriptInstructions s).filterMap (fun i =>
    match i with
    | .pushBytes b => some b
    | .op _ => none)

/-- Script whose instruction stream is PUSH(1) OP_NOP PUSH(33): it contains
exactly two pushes, the second 33 bytes long. -/
def c7Script : List Nat := [1, 0xaa, 0x61, 0x21] ++ List.replicate 33 2

/-- C7 counterexample: a scriptSig containing exactly two pushes whose
second push is 33 bytes, yet extract_public_key_from_script returns None,
because an OP_NOP sits between the pushes and the source requires the
instruction list to be exactly the two pushes. -/
theorem extract_public_key_two_pushes_counterexample :
    (scriptPushes c7Script).length = 2 ∧
    ((scriptPushes c7Script).getD 1 []).length = 33 ∧
    extract_public_key_from_script c7Script = none := by
  refine ⟨by decide, by decide, by decide⟩

/-- C7 as amended: extract_public_key_from_script returns some v exactly
when the scriptSig decodes to exactly two instructions, both pushes, and
the second push v is 33 or 65 bytes long; v is then that push verbatim. -/
theorem extract_public_key_iff (s v : List Nat) :
    extract_public_key_from_script s = some v ↔
      ∃ a, scriptInstructions s = [Instr.pushBytes a, Instr.pushBytes v] ∧
        (v.length = 33 ∨ v.length = 65) := by
  unfold extract_public_key_from_script
  rcases hL : scriptInstructions s with _ | ⟨i1, _ | ⟨i2, _ | ⟨i3, t⟩⟩⟩
  all_goals simp only [hL]
  · simp
  · simp [Instr.isPush]
  · cases i1 <;> cases i2 <;>
      simp [Instr.isPush, List.getD] <;>
      constructor <;>
      · rintro ⟨h1, h2⟩
        first
        | exact ⟨h1.symm ▸ h2, h1⟩
        | exact ⟨h2 ▸ h1, h2⟩
        | (try simp_all)
  · simp [Instr.isPush]

/-- Transaction id used by the C3 scenario. -/
def c3Txid : List Nat := List.replicate 32 9

/-- State after an input insert revealed pubkey [1] for address id 0. -/
def c3Db1 : Db :=
  (store_transaction_input (get_or_create_address emptyDb "1c3" "p2pkh" 0 none).2
    0 c3Txid 1 0 7 100 (some [1])).2

/-- C3 counterexample: the address's public key is stored as [1] and the
exposure flag raised, yet a later insert_input carrying revealed pubkey
[2] for the same address overwrites the stored key: the source's
update_address_public_key has no only-when-unset condition. -/
theorem store_input_pubkey_overwrite_counterexample :
    c3Db1.addresses.map (fun r => (r.public_key, r.is_public_key_exposed)) =
      [(some [1], true)] ∧
    (store_transaction_input c3Db1 0 c3Txid 2 0 8 100 (some [2])).2.addresses.map
        (fun r => (r.public_key, r.is_public_key_exposed)) =
      [(some [2], true)] :=
  ⟨rfl, rfl⟩

theorem applyDbOp_next_address_mono (db : Db) (op : DbOp) :
    db.next_address_id ≤ (applyDbOp db op).next_address_id := by
  cases op <;> simp [applyDbOp]
  case getOrCreate a st h x =>
    unfold get_or_create_address
    split
    · exact Nat.le_refl _
    · exact Nat.le_succ _

/-- C3 as amended: (1) an input insert with a present revealed pubkey
always writes that pubkey onto the owning address row and raises the
exposure flag, with no only-when-unset condition, so a stored key can be
overwritten later; (2) the exposure flag is monotone: once true on the
rows of an address id, it stays true across any sequence of store writes. -/
theorem store_input_pubkey_set_and_exposure_monotone :
    (∀ (db : Db) (aid : Nat) (t : List Nat) (h i oid : Nat) (v : Int) (p : List Nat),
      ∀ r ∈ (store_transaction_input db aid t h i oid v (some p)).2.addresses,
        r.address_id = aid → r.public_key = some p ∧ r.is_public_key_exposed = true) ∧
    (∀ (db : Db) (aid : Nat) (ops : List DbOp), aid < db.next_address_id →
      (∀ r ∈ db.addresses, r.address_id = aid → r.is_public_key_exposed = true) →
      ∀ r ∈ (applyDbOps db ops).addresses, r.address_id = aid →
        r.is_public_key_exposed = true) := by
  constructor
  · intro db aid t h i oid v p r hr hid
    simp only [store_transaction_input, update_address_public_key,
      update_address_spend_count, List.map_map, List.mem_map] at hr
    obtain ⟨r0, _, hr0⟩ := hr
    by_cases h0 : r0.address_id = aid
    · simp [Function.comp, h0] at hr0
      subst hr0
      exact ⟨rfl, rfl⟩
    · exfalso
      simp [Function.comp, h0] at hr0
      subst hr0
      exact h0 hid
  · intro db aid ops
    induction ops generalizing db with
    | nil => intro _ hex r hr; exact hex r hr
    | cons op rest ih =>
      intro hlt hex
      have hlt' : aid < (applyDbOp db op).next_address_id :=
        Nat.lt_of_lt_of_le hlt (applyDbOp_next_address_mono db op)
      refine ih (applyDbOp db op) hlt' ?_
      intro r hr hid
      cases op with
      | storeBlock h hs ts c =>
        simp [applyDbOp] at hr
        exact hex r hr hid
      | storeTx h idx t cb ic oc fee =>
        simp only [applyDbOp] at hr
        rw [show (store_transaction db h idx t cb ic oc fee).addresses = db.addresses by
          simp] at hr
        exact hex r hr hid
      | markSpent o i =>
        simp only [applyDbOp, mark_output_spent_addresses] at hr
        exact hex r hr hid
      | getOrCreate a st h x =>
        simp only [applyDbOp] at hr
        unfold get_or_create_address at hr
        rcases hfind : db.addresses.find? (fun row => row.address_string == a) with _ | r0
        · rw [hfind] at hr
          simp at hr
          rcases hr with hr | hr
          · exact hex r hr hid
          · exfalso
            have : r.address_id = db.next_address_id := by rw [hr]
            omega
        · rw [hfind] at hr
          exact hex r hr hid
      | storeOutput aid2 t h vout v =>
        simp only [applyDbOp, store_transaction_output,
          update_address_receive_count, List.mem_map] at hr
        obtain ⟨r0, hr0m, hr0⟩ := hr
        by_cases h0 : r0.address_id = aid2
        · simp only [h0, beq_self_eq_true, if_true] at hr0
          subst hr0
          exact hex r0 hr0m (h0.trans hid)
        · simp only [beq_iff_eq, h0, if_false] at hr0
          subst hr0
          exact hex r0 hr0m hid
      | storeInput aid2 t h idx oid v pk =>
        simp only [applyDbOp, store_transaction_input] at hr
        cases pk with
        | none =>
          simp only [update_address_spend_count, List.mem_map] at hr
          obtain ⟨r0, hr0m, hr0⟩ := hr
          by_cases h0 : r0.address_id = aid2
          · simp only [h0, beq_self_eq_true, if_true] at hr0
            subst hr0
            exact hex r0 hr0m (h0.trans hid)
          · simp only [beq_iff_eq, h0, if_false] at hr0
            subst hr0
            exact hex r0 hr0m hid
        | some p =>
          simp only [update_address_public_key, update_address_spend_count,
            List.map_map, List.mem_map] at hr
          obtain ⟨r0, hr0m, hr0⟩ := hr
          by_cases h0 : r0.address_id = aid2
          · simp only [Function.comp, h0, beq_self_eq_true, if_true] at hr0
            subst hr0
            rfl
          · simp only [Function.comp, beq_iff_eq, h0, if_false] at hr0
            subst hr0
            exact hex r0 hr0m hid

/-- Store writes used by the C3 witness. -/
def opsC3W : List DbOp :=
  [DbOp.getOrCreate "1x" "unknown" 5 none, DbOp.storeOutput 0 c3Txid 5 0 50]

theorem store_input_pubkey_set_and_exposure_monotone_witness :
    ((store_transaction_input c3Db1 0 c3Txid 2 0 8 100 (some [2])).2.addresses.all
      (fun r => !(r.address_id == 0) ||
        (r.public_key == some [2] && r.is_public_key_exposed)) = true) ∧
    ((applyDbOps c3Db1 opsC3W).addresses.all
      (fun r => !(r.address_id == 0) || r.is_public_key_exposed) = true) := by
  constructor
  · apply List.all_eq_true.mpr
    intro r hr
    have h := store_input_pubkey_set_and_exposure_monotone.1 c3Db1 0 c3Txid 2 0 8 100 [2] r hr
    by_cases h0 : r.address_id = 0
    · obtain ⟨h1, h2⟩ := h h0
      simp [h1, h2]
    · simp [h0]
  · apply List.all_eq_true.mpr
    intro r hr
    have h := store_input_pubkey_set_and_exposure_monotone.2 c3Db1 0 opsC3W
      (by decide) (by decide) r hr
    by_cases h0 : r.address_id = 0
    · simp [h0, h h0]
    · simp [h0]

/-- Whether a store write is one of the C9 operations (output or input
insert). -/
def DbOp.isOutIn : DbOp → Bool
  | .storeOutput _ _ _ _ _ => true
  | .storeInput _ _ _ _ _ _ _ => true
  | _ => false

theorem counters_correct_store_output (db : Db) (hI : CountersCorrect db) (aid : Nat)
    (t : List Nat) (h v : Nat) (val : Int) :
    CountersCorrect (store_transaction_output db aid t h v val).2 := by
  intro r hr
  simp only [store_transaction_output, update_address_receive_count, List.mem_map] at hr
  obtain ⟨r0, hr0m, hr0⟩ := hr
  obtain ⟨hrec, hsp⟩ := hI r0 hr0m
  by_cases h0 : r0.address_id = aid
  · simp only [h0, beq_self_eq_true, if_true] at hr0
    subst hr0
    constructor
    · simp only [store_transaction_output, update_address_receive_count]
      rw [List.filter_append]
      simp [h0, hrec]
    · simpa [h0] using hsp
  · simp only [beq_iff_eq, h0, if_false] at hr0
    subst hr0
    constructor
    · simp only [store_transaction_output, update_address_receive_count]
      rw [List.filter_append]
      have : ((aid == r0.address_id)) = false := by
        simp
        omega
      simp [this, hrec]
    · simpa using hsp

theorem counters_correct_store_input (db : Db) (hI : CountersCorrect db) (aid : Nat)
    (t : List Nat) (h i oid : Nat) (val : Int) (pk : Option (List Nat)) :
    CountersCorrect (store_transaction_input db aid t h i oid val pk).2 := by
  intro r hr
  simp only [store_transaction_input] at hr ⊢
  cases pk with
  | none =>
    simp only [update_address_spend_count, List.mem_map] at hr
    obtain ⟨r0, hr0m, hr0⟩ := hr
    obtain ⟨hrec, hsp⟩ := hI r0 hr0m
    by_cases h0 : r0.address_id = aid
    · simp only [h0, beq_self_eq_true, if_true] at hr0
      subst hr0
      refine ⟨by simpa [h0] using hrec, ?_⟩
      simp only [update_address_spend_count]
      rw [List.filter_append]
      simp [h0, hsp]
    · simp only [beq_iff_eq, h0, if_false] at hr0
      subst hr0
      refine ⟨by simpa using hrec, ?_⟩
      simp only [update_address_spend_count]
      rw [List.filter_append]
      have : ((aid == r0.address_id)) = false := by
        simp
        omega
      simp [this, hsp]
  | some p =>
    simp only [update_address_public_key, update_address_spend_count,
      List.map_map, List.mem_map] at hr
    obtain ⟨r0, hr0m, hr0⟩ := hr
    obtain ⟨hrec, hsp⟩ := hI r0 hr0m
    by_cases h0 : r0.address_id = aid
    · simp only [Function.comp, h0, beq_self_eq_true, if_true] at hr0
      subst hr0
      refine ⟨by simpa [h0] using hrec, ?_⟩
      simp only [update_address_public_key, update_address_spend_count]
      rw [List.filter_append]
      simp [h0, hsp]
    · simp only [Function.comp, beq_iff_eq, h0, if_false] at hr0
      subst hr0
      refine ⟨by simpa using hrec, ?_⟩
      simp only [update_address_public_key, update_address_spend_count]
      rw [List.filter_append]
      have : ((aid == r0.address_id)) = false := by
        simp
        omega
      simp [this, hsp]

/-- C9: every output insert and every input insert preserves invariant I5,
because the single appended row is matched by a single counter bump on the
owning address; hence any sequence of such store writes preserves it. -/
theorem store_writes_preserve_counters (db : Db) (ops : List DbOp)
    (hops : ∀ op ∈ ops, op.isOutIn = true) (hI : CountersCorrect db) :
    CountersCorrect (applyDbOps db ops) := by
  induction ops generalizing db with
  | nil => exact hI
  | cons op rest ih =>
    have hop := hops op (List.mem_cons_self op rest)
    have hrest : ∀ o ∈ rest, o.isOutIn = true := fun o ho =>
      hops o (List.mem_cons_of_mem op ho)
    cases op with
    | storeOutput aid t h vout v =>
      exact ih (applyDbOp db (.storeOutput aid t h vout v)) hrest
        (counters_correct_store_output db hI aid t h vout v)
    | storeInput aid t h idx oid v pk =>
      exact ih (applyDbOp db (.storeInput aid t h idx oid v pk)) hrest
        (counters_correct_store_input db hI aid t h idx oid v pk)
    | storeBlock h hs ts c => simp [DbOp.isOutIn] at hop
    | storeTx h idx t cb ic oc fee => simp [DbOp.isOutIn] at hop
    | getOrCreate a st h x => simp [DbOp.isOutIn] at hop
    | markSpent o i => simp [DbOp.isOutIn] at hop

/-- Starting database for the C9 witness: one address row. -/
def dbC9 : Db := (get_or_create_address emptyDb "1c9" "p2pkh" 0 none).2

/-- The C9 witness operations: one output insert then one input insert. -/
def opsC9 : List DbOp :=
  [DbOp.storeOutput 0 c3Txid 1 0 50, DbOp.storeInput 0 c3Txid 2 0 0 50 none]

theorem store_writes_preserve_counters_witness :
    CountersCorrect dbC9 ∧ CountersCorrect (applyDbOps dbC9 opsC9) :=
  ⟨by unfold CountersCorrect; decide,
   store_writes_preserve_counters dbC9 opsC9 (by decide)
     (by unfold CountersCorrect; decide)⟩

theorem syncAux_spec (probe : Nat → Nat) (tip : Nat) :
    ∀ (fuel cur k : Nat), tip + 1 - cur ≤ fuel →
      (syncAux probe tip fuel cur k).1 = List.range' cur (tip + 1 - cur) ∧
      (syncAux probe tip fuel cur k).2.length =
        ((List.range' cur (tip + 1 - cur)).filter (fun x => (x + 1) % 100 = 0)).length := by
  intro fuel
  induction fuel with
  | zero =>
    intro cur k hf
    have : tip + 1 - cur = 0 := Nat.le_zero.mp hf
    simp [syncAux, this]
  | succ f ih =>
    intro cur k hf
    by_cases hcur : cur ≤ tip
    · have hn : tip + 1 - cur = (tip + 1 - (cur + 1)) + 1 := by omega
      have hf' : tip + 1 - (cur + 1) ≤ f := by omega
      rw [hn, List.range'_succ]
      by_cases hmod : (cur + 1) % 100 = 0
      · have h1 := (ih (cur + 1) (k + 1) hf').1
        have h2 := (ih (cur + 1) (k + 1) hf').2
        simp [syncAux, hcur, hmod, h1, h2, List.filter_cons]
      · have h1 := (ih (cur + 1) k hf').1
        have h2 := (ih (cur + 1) k hf').2
        simp [syncAux, hcur, hmod, h1, h2, List.filter_cons]
    · have : tip + 1 - cur = 0 := by omega
      simp [syncAux, hcur, this]

/-- C4 as amended: for a batch started at `start` with initial tip probe
T = probe 0 and start ≤ T, the processed heights are exactly start..T:
the tip is re-probed after every height whose successor is a multiple of
100 (one observation per such height), but the batch's upper bound is
never extended past T, whatever the re-probes return. -/
theorem process_all_blocks_bound_fixed (probe : Nat → Nat) (start : Nat)
    (h : start ≤ probe 0) :
    (process_all_blocks probe start).1 = List.range' start (probe 0 + 1 - start) ∧
    (process_all_blocks probe start).2.length =
      ((List.range' start (probe 0 + 1 - start)).filter
        (fun x => (x + 1) % 100 = 0)).length := by
  unfold process_all_blocks
  have hns : ¬ start > probe 0 := by omega
  simp only [hns, if_false]
  exact syncAux_spec probe (probe 0) (probe 0 + 1 - start) start 1 (Nat.le_refl _)

/-- Probe sequence for the C4 counterexample: the initial probe reports
tip 100; the re-probe made during the batch reports that the tip advanced
to 150. -/
def probeC4 : Nat → Nat := fun k => if k = 0 then 100 else 150

/-- C4 counterexample: the batch started with tip bound 100 does observe
the advanced tip 150 at its re-probe, yet processes exactly heights
0..100: height 101 (and everything up to the new tip 150) is left to a
later batch, so the upper bound is not extended as the claim states. -/
theorem process_all_blocks_no_extension_counterexample :
    (process_all_blocks probeC4 0).2 = [150] ∧
    (process_all_blocks probeC4 0).1 = List.range' 0 101 ∧
    ¬ (101 ∈ (process_all_blocks probeC4 0).1) := by
  refine ⟨by decide, by decide, by decide⟩

/-- Probe sequence for the C4 witness: constant tip 205. -/
def probeC4W : Nat → Nat := fun _ => 205

theorem process_all_blocks_bound_fixed_witness :
    (process_all_blocks probeC4W 3).1 = List.range' 3 (probeC4W 0 + 1 - 3) ∧
    (process_all_blocks probeC4W 3).2.length =
      ((List.range' 3 (probeC4W 0 + 1 - 3)).filter
        (fun x => (x + 1) % 100 = 0)).length :=
  process_all_blocks_bound_fixed probeC4W 3 (by decide)

/-- The canonical 25-byte P2PKH script around a 20-byte hash. -/
def p2pkhScript (H : List Nat) : List Nat := [0x76, 0xa9, 0x14] ++ H ++ [0x88, 0xac]

theorem scriptInstructions_p2pkhScript (H : List Nat) (hl : H.length = 20) :
    scriptInstructions (p2pkhScript H) =
      [Instr.op 118, Instr.op 169, Instr.pushBytes H, Instr.op 136, Instr.op 172] := by
  have hlen : (p2pkhScript H).length = 25 := by simp [p2pkhScript, hl]
  unfold scriptInstructions parseScript
  rw [hlen]
  unfold p2pkhScript
  have htake : (H ++ [136, 172]).take 20 = H := List.take_left' hl
  have hdrop : (H ++ [136, 172]).drop 20 = ([136, 172] : List Nat) := List.drop_left' hl
  have hlen2 : (H ++ [136, 172]).length = 22 := by simp [hl]
  simp [parseAux, htake, hdrop, hlen2]

theorem is_p2pkh_p2pkhScript (H : List Nat) (hl : H.length = 20) :
    is_p2pkh (p2pkhScript H) = true := by
  have h23 : (H ++ [136, 172])[20]? = some 136 := by
    rw [List.getElem?_append_right (by omega)]
    simp [hl]
  have h24 : (H ++ [136, 172])[21]? = some 172 := by
    rw [List.getElem?_append_right (by omega)]
    simp [hl]
  simp [is_p2pkh, p2pkhScript, hl, List.getD_eq_getElem?_getD, h23, h24]
  refine ⟨?_, ?_⟩ <;> rw [List.getElem_append_right (by omega)] <;> simp [hl]

/-- The 20-byte hash of scenario 2 of the spec (the genesis coinbase
payee's pubkey hash). -/
def genesisH : List Nat :=
  [0x62, 0xe9, 0x07, 0xb1, 0x5c, 0xbf, 0x27, 0xd5, 0x42, 0x53,
   0x99, 0xeb, 0xf6, 0xf0, 0xfb, 0x50, 0xeb, 0xb8, 0x8f, 0x18]

set_option maxRecDepth 100000

/-- C5: every canonical P2PKH byte pattern around a 20-byte hash H
classifies as p2pkh with address Base58Check(0x00 followed by H) and no
extra data; in particular the spec's concrete hash yields the address
1A1zP1eP5QGefi2DMPTfTL5SLmv7DivfNa. -/
theorem p2pkh_classification :
    (∀ H : List Nat, H.length = 20 →
      extract_address_from_script (p2pkhScript H) =
        some ⟨base58_encode_check (0 :: H), "p2pkh", none⟩) ∧
    extract_address_from_script (p2pkhScript genesisH) =
      some ⟨"1A1zP1eP5QGefi2DMPTfTL5SLmv7DivfNa", "p2pkh", none⟩ := by
  have main : ∀ H : List Nat, H.length = 20 →
      extract_address_from_script (p2pkhScript H) =
        some ⟨base58_encode_check (0 :: H), "p2pkh", none⟩ := by
    intro H hl
    have hparse := scriptInstructions_p2pkhScript H hl
    have hp := is_p2pkh_p2pkhScript H hl
    unfold extract_address_from_script
    rw [hparse]
    simp [classifyStd, hp, hl]
  refine ⟨main, ?_⟩
  rw [main genesisH (by decide)]
  have : base58_encode_check (0 :: genesisH) = "1A1zP1eP5QGefi2DMPTfTL5SLmv7DivfNa" := by
    decide
  rw [this]

theorem p2pkh_classification_witness :
    genesisH.length = 20 ∧
    extract_address_from_script (p2pkhScript genesisH) =
      some ⟨base58_encode_check (0 :: genesisH), "p2pkh", none⟩ :=
  ⟨by decide, p2pkh_classification.1 genesisH (by decide)⟩

theorem getElem_opt_of_getD (l : List Nat) (i x : Nat) (_hx : 0 < x)
    (hi : i < l.length) (h : l[i]?.getD 0 = x) : l[i]? = some x := by
  rcases he : l[i]? with _ | y
  · exact absurd (List.getElem?_eq_none_iff.mp he) (by omega)
  · rw [he] at h
    simp at h
    exact congrArg some h

theorem is_p2pkh_shape (s : List Nat) (h : is_p2pkh s = true) :
    ∃ H, H.length = 20 ∧ s = p2pkhScript H := by
  rcases s with _ | ⟨a, _ | ⟨b, _ | ⟨c, rest⟩⟩⟩ <;>
    simp [is_p2pkh, List.getD_eq_getElem?_getD] at h
  obtain ⟨hlen, h0, h1, h2, h23, h24⟩ := h
  subst h0; subst h1; subst h2
  have hrl : rest.length = 22 := by omega
  have hsplit := List.take_append_drop 20 rest
  have hdl : (rest.drop 20).length = 2 := by simp [hrl]
  have h20 : (rest.drop 20)[0]? = some 136 := by
    rw [List.getElem?_drop]
    exact getElem_opt_of_getD rest 20 136 (by omega) (by omega) h23
  have h21 : (rest.drop 20)[1]? = some 172 := by
    rw [List.getElem?_drop]
    exact getElem_opt_of_getD rest 21 172 (by omega) (by omega) h24
  rcases hd : rest.drop 20 with _ | ⟨x, _ | ⟨y, _ | ⟨z, tl⟩⟩⟩ <;> rw [hd] at hdl h20 h21 <;>
    simp at hdl h20 h21
  refine ⟨rest.take 20, by simp [hrl], ?_⟩
  subst h20; subst h21
  simp only [p2pkhScript]
  rw [← hsplit, hd]
  simp
  exact (List.take_left' (by simp [hrl])).symm

theorem is_p2sh_shape (s : List Nat) (h : is_p2sh s = true) :
    ∃ H, H.length = 20 ∧ s = [169, 20] ++ H ++ [135] := by
  rcases s with _ | ⟨a, _ | ⟨b, rest⟩⟩ <;>
    simp [is_p2sh, List.getD_eq_getElem?_getD] at h
  obtain ⟨hlen, h0, h1, h22⟩ := h
  subst h0; subst h1
  have hrl : rest.length = 21 := by omega
  have hsplit := List.take_append_drop 20 rest
  have hdl : (rest.drop 20).length = 1 := by simp [hrl]
  have h20 : (rest.drop 20)[0]? = some 135 := by
    rw [List.getElem?_drop]
    exact getElem_opt_of_getD rest 20 135 (by omega) (by omega) h22
  rcases hd : rest.drop 20 with _ | ⟨x, _ | ⟨y, tl⟩⟩ <;> rw [hd] at hdl h20 <;>
    simp at hdl h20
  refine ⟨rest.take 20, by simp [hrl], ?_⟩
  subst h20
  rw [← hsplit, hd]
  simp
  exact (List.take_left' (by simp [hrl])).symm

theorem scriptInstructions_p2sh (H : List Nat) (hl : H.length = 20) :
    scriptInstructions ([169, 20] ++ H ++ [135]) =
      [Instr.op 169, Instr.pushBytes H, Instr.op 135] := by
  have hlen : (([169, 20] ++ H ++ [135]) : List Nat).length = 23 := by simp [hl]
  unfold scriptInstructions parseScript
  rw [hlen]
  have htake : (H ++ [135]).take 20 = H := List.take_left' hl
  have hdrop : (H ++ [135]).drop 20 = ([135] : List Nat) := List.drop_left' hl
  have hlen2 : (H ++ [135]).length = 21 := by simp [hl]
  simp [parseAux, htake, hdrop, hlen2]

theorem is_witness_program_two_instructions (s : List Nat)
    (h : is_witness_program s = true) : (scriptInstructions s).length = 2 := by
  rcases s with _ | ⟨v, _ | ⟨n, body⟩⟩ <;>
    simp [is_witness_program, List.getD_eq_getElem?_getD] at h
  obtain ⟨h4, h42, hv, hn2, hn40, hneq⟩ := h
  subst hneq
  have hbl : 2 ≤ body.length := by omega
  have hbody : body.length ≤ 75 := by omega
  unfold scriptInstructions parseScript
  have hlen : (v :: body.length :: body).length = body.length + 2 := by simp
  rw [hlen]
  have hne : ¬ (body.length < body.length) := by omega
  rcases hv with hv0 | ⟨hv81, hv96⟩
  · subst hv0
    simp [parseAux, hbody, hne, List.drop_length]
  · have hvop : ¬ (v ≤ 75) := by omega
    have hv76 : ¬ (v = 76) := by omega
    have hv77 : ¬ (v = 77) := by omega
    have hv78 : ¬ (v = 78) := by omega
    simp [parseAux, hvop, hv76, hv77, hv78, hbody, hne, List.drop_length]

/-- The 2-of-3 multisig script of spec scenario 5 around three 33-byte
pubkeys. -/
def msScript (a b c : List Nat) : List Nat :=
  [0x52, 0x21] ++ a ++ [0x21] ++ b ++ [0x21] ++ c ++ [0x53, 0xae]

theorem scriptInstructions_msScript (a b c : List Nat)
    (ha : a.length = 33) (hb : b.length = 33) (hc : c.length = 33) :
    scriptInstructions (msScript a b c) =
      [Instr.op 82, Instr.pushBytes a, Instr.pushBytes b, Instr.pushBytes c,
       Instr.op 83, Instr.op 174] := by
  have hlen : (msScript a b c).length = 105 := by simp [msScript, ha, hb, hc]
  unfold scriptInstructions parseScript
  rw [hlen]
  unfold msScript
  have hta : (a ++ (33 :: (b ++ 33 :: (c ++ [83, 174])))).take 33 = a := List.take_left' ha
  have hda : (a ++ (33 :: (b ++ 33 :: (c ++ [83, 174])))).drop 33 =
      33 :: (b ++ 33 :: (c ++ [83, 174])) := List.drop_left' ha
  have htb : (b ++ (33 :: (c ++ [83, 174]))).take 33 = b := List.take_left' hb
  have hdb : (b ++ (33 :: (c ++ [83, 174]))).drop 33 = 33 :: (c ++ [83, 174]) :=
    List.drop_left' hb
  have htc : (c ++ [83, 174]).take 33 = c := List.take_left' hc
  have hdc : (c ++ [83, 174]).drop 33 = ([83, 174] : List Nat) := List.drop_left' hc
  simp [parseAux, hta, hda, htb, hdb, htc, hdc, ha, hb, hc]


/-- C6: every script whose instruction stream has at least 4 instructions,
ends in OP_CHECKMULTISIG, begins with OP_PUSHNUM_m, has OP_PUSHNUM_n
second-to-last with m and n between 1 and 3, m at most n, and exactly
n + 3 instructions, classifies as p2ms with address Base58Check(0x05
followed by hash160 of the script bytes) and extra data m and n; in
particular the 2-of-3 script around three 33-byte pubkeys yields m = 2,
n = 3. -/
theorem p2ms_classification :
    (∀ (s : List Nat) (m n : Nat),
      4 ≤ (scriptInstructions s).length →
      (scriptInstructions s).getLast? = some (Instr.op 174) →
      (scriptInstructions s).head? = some (Instr.op (80 + m)) →
      (scriptInstructions s)[(scriptInstructions s).length - 2]? =
        some (Instr.op (80 + n)) →
      1 ≤ m → m ≤ 3 → 1 ≤ n → n ≤ 3 → m ≤ n →
      (scriptInstructions s).length = n + 3 →
      extract_address_from_script s =
        some ⟨base58_encode_check (5 :: hash160 s), "p2ms",
          some (Json.obj [("m", Json.num m), ("n", Json.num n)])⟩) ∧
    (∀ a b c : List Nat, a.length = 33 → b.length = 33 → c.length = 33 →
      extract_address_from_script (msScript a b c) =
        some ⟨base58_encode_check (5 :: hash160 (msScript a b c)), "p2ms",
          some (Json.obj [("m", Json.num 2), ("n", Json.num 3)])⟩) := by
  have main : ∀ (s : List Nat) (m n : Nat),
      4 ≤ (scriptInstructions s).length →
      (scriptInstructions s).getLast? = some (Instr.op 174) →
      (scriptInstructions s).head? = some (Instr.op (80 + m)) →
      (scriptInstructions s)[(scriptInstructions s).length - 2]? =
        some (Instr.op (80 + n)) →
      1 ≤ m → m ≤ 3 → 1 ≤ n → n ≤ 3 → m ≤ n →
      (scriptInstructions s).length = n + 3 →
      extract_address_from_script s =
        some ⟨base58_encode_check (5 :: hash160 s), "p2ms",
          some (Json.obj [("m", Json.num m), ("n", Json.num n)])⟩ := by
    intro s m n h4 hlast hfirst hsecond hm1 hm3 hn1 hn3 hmn hcount
    have hpkh : is_p2pkh s = false := by
      cases hb : is_p2pkh s with
      | false => rfl
      | true =>
        obtain ⟨H, hHl, hs⟩ := is_p2pkh_shape s hb
        rw [hs, scriptInstructions_p2pkhScript H hHl] at hfirst
        simp at hfirst
        omega
    have hsh : is_p2sh s = false := by
      cases hb : is_p2sh s with
      | false => rfl
      | true =>
        obtain ⟨H, hHl, hs⟩ := is_p2sh_shape s hb
        rw [hs, scriptInstructions_p2sh H hHl] at hfirst
        simp at hfirst
        omega
    have hwit : is_witness_program s = false := by
      cases hb : is_witness_program s with
      | false => rfl
      | true =>
        have := is_witness_program_two_instructions s hb
        omega
    have hlen2 : ¬ ((scriptInstructions s).length = 2) := by omega
    have hstd : classifyStd s (scriptInstructions s) = none := by
      unfold classifyStd
      simp [hpkh, hsh, hwit, hlen2]
    have hms : classifyMs s (scriptInstructions s) =
        some (some ⟨base58_encode_check (5 :: hash160 s), "p2ms",
          some (Json.obj [("m", Json.num m), ("n", Json.num n)])⟩) := by
      unfold classifyMs
      rw [hlast]
      have houter : (4 ≤ (scriptInstructions s).length ∧
          ((Instr.op 174).opcode == some 174) = true) := by
        simp [Instr.opcode, h4]
      rw [if_pos houter]
      have hmval : msNum (80 + m) = some m := by
        interval_cases m <;> rfl
      have hnval : msNum (80 + n) = some n := by
        interval_cases n <;> rfl
      rw [hfirst, hsecond]
      simp [Instr.opcode, hmval, hnval, hmn, hcount]
    unfold extract_address_from_script
    simp only [hstd, hms]
  refine ⟨main, ?_⟩
  intro a b c ha hb hc
  have hp := scriptInstructions_msScript a b c ha hb hc
  refine main (msScript a b c) 2 3 ?_ ?_ ?_ ?_ (by omega) (by omega) (by omega)
    (by omega) (by omega) ?_ <;> rw [hp] <;> first | rfl | simp

theorem p2ms_classification_witness :
    extract_address_from_script
        (msScript (2 :: List.replicate 32 17) (3 :: List.replicate 32 34)
          (2 :: List.replicate 32 51)) =
      some ⟨base58_encode_check (5 :: hash160 (msScript (2 :: List.replicate 32 17)
          (3 :: List.replicate 32 34) (2 :: List.replicate 32 51))), "p2ms",
        some (Json.obj [("m", Json.num 2), ("n", Json.num 3)])⟩ :=
  p2ms_classification.2 (2 :: List.replicate 32 17) (3 :: List.replicate 32 34)
    (2 :: List.replicate 32 51) (by decide) (by decide) (by decide)

/-- Whether an instruction is a 20-byte push (the rule 7 trigger). -/
def is20Push : Instr → Bool
  | .pushBytes b => b.length == 20
  | .op _ => false

theorem scanAux_finds (all : List Instr) :
    ∀ (l : List Instr) (i base : Nat) (P : List Nat),
      l[i]? = some (Instr.pushBytes P) → P.length = 20 →
      (l.take i).any is20Push = false →
      scanAux all l base = some ⟨base58_encode_check (0 :: P), "non-standard",
        some (Json.obj [("pattern", Json.str "hash160-found"),
                        ("hash_position", Json.num (base + i)),
                        ("script_ops", Json.arr ((all.map stringifyInstr).map Json.str))])⟩ := by
  intro l
  induction l with
  | nil => intro i base P hi; simp at hi
  | cons x rest ih =>
    intro i base P hi hP hbefore
    cases i with
    | zero =>
      simp at hi
      subst hi
      simp [scanAux, hP]
    | succ i =>
      simp [List.take_succ_cons, is20Push] at hbefore
      obtain ⟨hx, hrest⟩ := hbefore
      rw [show base + (i + 1) = (base + 1) + i by omega]
      cases x with
      | pushBytes h =>
        have hneq : ¬ (h.length = 20) := by
          simp [is20Push] at hx
          omega
        rw [scanAux, if_neg hneq]
        exact ih i (base + 1) P (by simpa using hi) hP (by simpa [is20Push] using hrest)
      | op c =>
        rw [scanAux]
        exact ih i (base + 1) P (by simpa using hi) hP (by simpa [is20Push] using hrest)

/-- C8 as amended: a script that matches none of rules 1 to 6 and does not
take the invalid-multisig early exit, whose first 20-byte push P sits at
instruction index i (with no earlier 20-byte push), classifies as
non-standard hash160-found with address Base58Check(0x00 followed by P)
and hash_position i; this holds for every such position i, not only 0. -/
theorem hash160_scan_classification (s : List Nat) (i : Nat) (P : List Nat)
    (hstd : classifyStd s (scriptInstructions s) = none)
    (hms : classifyMs s (scriptInstructions s) = none)
    (hplus : classifyPlus (scriptInstructions s) = none)
    (hPi : (scriptInstructions s)[i]? = some (Instr.pushBytes P))
    (hP : P.length = 20)
    (hbefore : ((scriptInstructions s).take i).any is20Push = false) :
    extract_address_from_script s =
      some ⟨base58_encode_check (0 :: P), "non-standard",
        some (Json.obj [("pattern", Json.str "hash160-found"),
                        ("hash_position", Json.num i),
                        ("script_ops",
                         Json.arr (((scriptInstructions s).map stringifyInstr).map
                           Json.str))])⟩ := by
  have hscan := scanAux_finds (scriptInstructions s) (scriptInstructions s) i 0 P hPi hP hbefore
  unfold extract_address_from_script
  simp only [hstd, hms, hplus]
  unfold classifyScan at hscan ⊢
  rw [hscan]
  simp

/-- Script for the C8 counterexample: OP_PUSHNUM_4, a 20-byte push,
OP_PUSHNUM_4, OP_CHECKMULTISIG. -/
def c8Script : List Nat := [0x54, 0x14] ++ genesisH ++ [0x54, 0xae]

/-- C8 counterexample: this script matches none of rules 1 to 6 (its first
opcode OP_PUSHNUM_4 is outside the rule 5 range) and contains a 20-byte
push at index 1, yet the classifier returns None instead of the
hash160-found record, because the P2MS section's invalid-m early exit
fires first. -/
theorem hash160_scan_counterexample :
    is_p2pkh c8Script = false ∧ is_p2sh c8Script = false ∧
    is_witness_program c8Script = false ∧
    classifyStd c8Script (scriptInstructions c8Script) = none ∧
    classifyPlus (scriptInstructions c8Script) = none ∧
    (scriptInstructions c8Script).head? = some (Instr.op 84) ∧ msNum 84 = none ∧
    (scriptInstructions c8Script)[1]? = some (Instr.pushBytes genesisH) ∧
    genesisH.length = 20 ∧
    extract_address_from_script c8Script = none :=
  ⟨by decide, by decide, by decide, rfl, rfl, by decide, rfl, by decide, by decide, rfl⟩

/-- Script for the C8 witness: OP_RETURN followed by a 20-byte push, so the
first 20-byte push sits at index 1, not 0. -/
def c8WitnessScript : List Nat := [0x6a, 0x14] ++ genesisH

theorem hash160_scan_classification_witness :
    extract_address_from_script c8WitnessScript =
      some ⟨base58_encode_check (0 :: genesisH), "non-standard",
        some (Json.obj [("pattern", Json.str "hash160-found"),
                        ("hash_position", Json.num 1),
                        ("script_ops",
                         Json.arr (((scriptInstructions c8WitnessScript).map
                           stringifyInstr).map Json.str))])⟩ :=
  hash160_scan_classification c8WitnessScript 1 genesisH rfl rfl rfl
    (by decide) (by decide) (by decide)


/-- C1 as amended: (1) the classifier returns None exactly for the empty
script and for scripts that fall through rules 1 to 4 and then take the
P2MS section's early exit (classifyMs returning the source's `return None`);
(2) that early exit happens exactly when there are at least 4 instructions,
the last a plain OP_CHECKMULTISIG, the first and second-to-last plain
opcodes of which the first or the second-to-last is outside
OP_PUSHNUM_1..3; (3) every other non-empty script matching none of rules
1 to 7 (un-decodable tails having been dropped by the instruction
iterator) classifies as unknown with address Base58Check(0x05 followed by
hash160 of the raw bytes) and the script_pattern extra data. -/
theorem extract_address_none_characterization :
    (∀ s : List Nat, extract_address_from_script s = none ↔
      s = [] ∨ (classifyStd s (scriptInstructions s) = none ∧
        classifyMs s (scriptInstructions s) = some none)) ∧
    (∀ s : List Nat, classifyMs s (scriptInstructions s) = some none ↔
      (4 ≤ (scriptInstructions s).length ∧
       (scriptInstructions s).getLast?.bind Instr.opcode = some 174 ∧
       ∃ f g, (scriptInstructions s).head?.bind Instr.opcode = some f ∧
         ((scriptInstructions s)[(scriptInstructions s).length - 2]?).bind
           Instr.opcode = some g ∧
         (msNum f = none ∨ msNum g = none))) ∧
    (∀ s : List Nat,
      classifyStd s (scriptInstructions s) = none →
      classifyMs s (scriptInstructions s) = none →
      classifyPlus (scriptInstructions s) = none →
      classifyScan (scriptInstructions s) = none →
      s ≠ [] →
      extract_address_from_script s =
        some ⟨base58_encode_check (5 :: hash160 s), "unknown",
          some (Json.obj [("script_pattern",
            Json.arr (((scriptInstructions s).map stringifyInstr).map Json.str))])⟩) := by
  refine ⟨?_, ?_, ?_⟩
  · intro s
    constructor
    · intro h
      by_cases hs : s = []
      · exact Or.inl hs
      · refine Or.inr ?_
        unfold extract_address_from_script at h
        rcases h1 : classifyStd s (scriptInstructions s) with _ | r
        · rw [h1] at h
          rcases h2 : classifyMs s (scriptInstructions s) with _ | r2
          · rw [h2] at h
            rcases h3 : classifyPlus (scriptInstructions s) with _ | r3
            · rw [h3] at h
              rcases h4 : classifyScan (scriptInstructions s) with _ | r4
              · rw [h4] at h
                simp only [] at h
                unfold classifyUnknown at h
                rcases he : s.isEmpty with _ | _
                · rw [he] at h
                  simp at h
                · exact absurd (List.isEmpty_iff.mp he) hs
              · rw [h4] at h
                simp at h
            · rw [h3] at h
              simp at h
          · rw [h2] at h
            simp only [] at h
            exact ⟨rfl, by rw [h]⟩
        · rw [h1] at h
          simp at h
    · rintro (hs | ⟨h1, h2⟩)
      · subst hs
        rfl
      · unfold extract_address_from_script
        simp only [h1, h2]
  · intro s
    unfold classifyMs
    by_cases houter : 4 ≤ (scriptInstructions s).length ∧
        (match (scriptInstructions s).getLast? with
         | some i => i.opcode == some 174
         | none => false) = true
    · rw [if_pos houter]
      obtain ⟨hlen4, hlast⟩ := houter
      have hlastb : (scriptInstructions s).getLast?.bind Instr.opcode = some 174 := by
        rcases hgl : (scriptInstructions s).getLast? with _ | inst
        · rw [hgl] at hlast
          simp at hlast
        · rw [hgl] at hlast
          simp at hlast
          simp [hlast]
      rcases hf : (scriptInstructions s).head?.bind Instr.opcode with _ | f <;>
        rcases hg : ((scriptInstructions s)[(scriptInstructions s).length - 2]?).bind
          Instr.opcode with _ | g
      · simp
      · simp
      · simp
      · rcases hmf : msNum f with _ | m
        · simp [hlen4, hlastb, hmf]
        · rcases hmg : msNum g with _ | nv
          · simp [hlen4, hlastb, hmf, hmg]
          · simp only [hmf, hmg]
            constructor
            · intro hc
              by_cases hcond : (m ≤ nv ∧ (scriptInstructions s).length = nv + 3)
              · rw [if_pos hcond] at hc
                simp at hc
              · rw [if_neg hcond] at hc
                cases hc
            · rintro ⟨-, -, f2, g2, hf2, hg2, hbad⟩
              cases hf2
              cases hg2
              rcases hbad with hbad | hbad
              · rw [hmf] at hbad
                cases hbad
              · rw [hmg] at hbad
                cases hbad
    · rw [if_neg houter]
      constructor
      · intro hc
        cases hc
      · rintro ⟨hlen4, hlastb, -⟩
        refine absurd ⟨hlen4, ?_⟩ houter
        rcases hgl : (scriptInstructions s).getLast? with _ | inst
        · rw [hgl] at hlastb
          cases hlastb
        · rw [hgl] at hlastb
          simp at hlastb
          simp [hlastb]
  · intro s h1 h2 h3 h4 h5
    unfold extract_address_from_script
    simp only [h1, h2, h3, h4]
    unfold classifyUnknown
    rw [if_neg (by simpa [List.isEmpty_iff] using h5)]

/-- C1 counterexample: the non-empty, fully decodable script OP_PUSHNUM_4
OP_PUSHNUM_4 OP_PUSHNUM_4 OP_CHECKMULTISIG returns None although the claim
allows None only for empty or un-parsable scripts, while the non-empty
un-parsable script consisting of the lone byte OP_PUSHDATA1 does not
return None although the claim demands it: both directions of the claimed
characterization fail. -/
theorem extract_address_none_counterexample :
    extract_address_from_script [84, 84, 84, 174] = none ∧
    ([84, 84, 84, 174] : List Nat) ≠ [] ∧
    (parseScript [84, 84, 84, 174]).2 = true ∧
    (extract_address_from_script [76]).isSome = true ∧
    ([76] : List Nat) ≠ [] ∧
    (parseScript [76]).2 = false :=
  ⟨rfl, by decide, by decide, rfl, by decide, by decide⟩

theorem extract_address_none_characterization_witness :
    extract_address_from_script [106] =
      some ⟨base58_encode_check (5 :: hash160 [106]), "unknown",
        some (Json.obj [("script_pattern",
          Json.arr (((scriptInstructions [106]).map stringifyInstr).map Json.str))])⟩ :=
  extract_address_none_characterization.2.2 [106] rfl rfl rfl rfl (by decide)

/-- Number of outputs of a transaction that the classifier accepts. -/
def classifiedOutputs (tx : Tx) : Nat :=
  (tx.outputs.filter (fun o => (extract_address_from_script o.script_pubkey).isSome)).length

/-- Number of classified outputs of a whole block. -/
def classifiedCount (b : BlockData) : Nat := (b.txdata.map classifiedOutputs).sum

theorem processOneOutput_outputs_length (h : Nat) (txid : List Nat) (db : Db)
    (vout : Nat) (o : TxOut) :
    (processOneOutput h txid db vout o).address_outputs.length =
      db.address_outputs.length +
        (if (extract_address_from_script o.script_pubkey).isSome then 1 else 0) := by
  unfold processOneOutput
  rcases hcl : extract_address_from_script o.script_pubkey with _ | info <;> simp [hcl]

theorem processOutputsFrom_outputs_length (h : Nat) (txid : List Nat) :
    ∀ (outs : List TxOut) (db : Db) (vout : Nat),
      (processOutputsFrom h txid db vout outs).address_outputs.length =
        db.address_outputs.length +
          (outs.filter (fun o => (extract_address_from_script o.script_pubkey).isSome)).length := by
  intro outs
  induction outs with
  | nil => intro db vout; simp [processOutputsFrom]
  | cons o rest ih =>
    intro db vout
    rw [processOutputsFrom, ih, processOneOutput_outputs_length, List.filter_cons]
    by_cases hcl : (extract_address_from_script o.script_pubkey).isSome = true <;>
      simp [hcl] <;> omega

theorem processOneInput_outputs_length (h : Nat) (txid : List Nat) (db : Db)
    (idx : Nat) (inp : TxIn) :
    (processOneInput h txid db idx inp).address_outputs.length =
      db.address_outputs.length := by
  unfold processOneInput
  rcases hf : find_output db inp.prev_txid inp.prev_vout with _ | oi <;> simp [hf]

theorem processInputsFrom_outputs_length (h : Nat) (txid : List Nat) :
    ∀ (ins : List TxIn) (db : Db) (idx : Nat),
      (processInputsFrom h txid db idx ins).address_outputs.length =
        db.address_outputs.length := by
  intro ins
  induction ins with
  | nil => intro db idx; simp [processInputsFrom]
  | cons i rest ih =>
    intro db idx
    rw [processInputsFrom, ih, processOneInput_outputs_length]

theorem processOneTx_outputs_length (h : Nat) (db : Db) (i : Nat) (tx : Tx) :
    (processOneTx h db i tx).address_outputs.length =
      db.address_outputs.length + classifiedOutputs tx := by
  unfold processOneTx process_transaction_outputs process_transaction_inputs
  by_cases hcb : tx.is_coinbase = true <;>
    simp [hcb, processInputsFrom_outputs_length, processOutputsFrom_outputs_length,
      classifiedOutputs]

theorem processTxsFrom_outputs_length (h : Nat) :
    ∀ (txs : List Tx) (db : Db) (i : Nat),
      (processTxsFrom h db i txs).address_outputs.length =
        db.address_outputs.length + (txs.map classifiedOutputs).sum := by
  intro txs
  induction txs with
  | nil => intro db i; simp [processTxsFrom]
  | cons tx rest ih =>
    intro db i
    rw [processTxsFrom, ih, processOneTx_outputs_length]
    simp [Nat.add_assoc]

theorem process_single_block_outputs_length (db : Db) (h : Nat) (b : BlockData) :
    (process_single_block db h b).address_outputs.length =
      db.address_outputs.length + classifiedCount b := by
  unfold process_single_block process_block_transactions classifiedCount
  rw [processTxsFrom_outputs_length]
  unfold store_processed_block
  split <;> simp

theorem processOneOutput_blocks (h : Nat) (txid : List Nat) (db : Db) (vout : Nat)
    (o : TxOut) :
    (processOneOutput h txid db vout o).blocks = db.blocks ∧
    (processOneOutput h txid db vout o).transactions = db.transactions ∧
    (processOneOutput h txid db vout o).txid_block_index = db.txid_block_index := by
  unfold processOneOutput
  rcases hcl : extract_address_from_script o.script_pubkey with _ | info <;> simp [hcl]

theorem processOutputsFrom_frame (h : Nat) (txid : List Nat) :
    ∀ (outs : List TxOut) (db : Db) (vout : Nat),
      (processOutputsFrom h txid db vout outs).blocks = db.blocks ∧
      (processOutputsFrom h txid db vout outs).transactions = db.transactions ∧
      (processOutputsFrom h txid db vout outs).txid_block_index = db.txid_block_index := by
  intro outs
  induction outs with
  | nil => intro db vout; simp [processOutputsFrom]
  | cons o rest ih =>
    intro db vout
    rw [processOutputsFrom]
    obtain ⟨h1, h2, h3⟩ := ih (processOneOutput h txid db vout o) (vout + 1)
    obtain ⟨g1, g2, g3⟩ := processOneOutput_blocks h txid db vout o
    exact ⟨h1.trans g1, h2.trans g2, h3.trans g3⟩

theorem processOneInput_frame (h : Nat) (txid : List Nat) (db : Db) (idx : Nat)
    (inp : TxIn) :
    (processOneInput h txid db idx inp).blocks = db.blocks ∧
    (processOneInput h txid db idx inp).transactions = db.transactions ∧
    (processOneInput h txid db idx inp).txid_block_index = db.txid_block_index ∧
    (processOneInput h txid db idx inp).addresses.length = db.addresses.length := by
  unfold processOneInput
  rcases hf : find_output db inp.prev_txid inp.prev_vout with _ | oi <;> simp [hf]

theorem processInputsFrom_frame (h : Nat) (txid : List Nat) :
    ∀ (ins : List TxIn) (db : Db) (idx : Nat),
      (processInputsFrom h txid db idx ins).blocks = db.blocks ∧
      (processInputsFrom h txid db idx ins).transactions = db.transactions ∧
      (processInputsFrom h txid db idx ins).txid_block_index = db.txid_block_index ∧
      (processInputsFrom h txid db idx ins).addresses.length = db.addresses.length := by
  intro ins
  induction ins with
  | nil => intro db idx; simp [processInputsFrom]
  | cons i rest ih =>
    intro db idx
    rw [processInputsFrom]
    obtain ⟨h1, h2, h3, h4⟩ := ih (processOneInput h txid db idx i) (idx + 1)
    obtain ⟨g1, g2, g3, g4⟩ := processOneInput_frame h txid db idx i
    exact ⟨h1.trans g1, h2.trans g2, h3.trans g3, h4.trans g4⟩

theorem processOneTx_blocks (h : Nat) (db : Db) (i : Nat) (tx : Tx) :
    (processOneTx h db i tx).blocks = db.blocks := by
  unfold processOneTx process_transaction_outputs process_transaction_inputs
  by_cases hcb : tx.is_coinbase = true <;>
    simp [hcb, (processInputsFrom_frame h tx.txid _ _ _).1,
      (processOutputsFrom_frame h tx.txid _ _ _).1]

theorem processTxsFrom_blocks (h : Nat) :
    ∀ (txs : List Tx) (db : Db) (i : Nat),
      (processTxsFrom h db i txs).blocks = db.blocks := by
  intro txs
  induction txs with
  | nil => intro db i; simp [processTxsFrom]
  | cons tx rest ih =>
    intro db i
    rw [processTxsFrom]
    exact (ih _ _).trans (processOneTx_blocks h db i tx)

theorem store_processed_block_blocks_eq (db : Db) (h : Nat) (hash : List Nat)
    (ts : Int) (cnt : Nat) :
    (store_processed_block db h hash ts cnt).blocks =
      if db.blocks.any (fun r => r.block_height == h) then
        db.blocks.map (fun r =>
          if r.block_height == h then
            { r with block_hash := hash, block_timestamp := ts, transaction_count := cnt }
          else r)
      else db.blocks ++ [⟨h, hash, ts, cnt⟩] := by
  unfold store_processed_block
  split <;> simp_all

theorem store_processed_block_blocks_idem (db : Db) (h : Nat) (hash : List Nat)
    (ts : Int) (cnt : Nat) :
    (store_processed_block (store_processed_block db h hash ts cnt) h hash ts cnt).blocks =
      (store_processed_block db h hash ts cnt).blocks := by
  have hfh : ∀ r : BlockRow,
      ((if r.block_height == h then
          { r with block_hash := hash, block_timestamp := ts, transaction_count := cnt }
        else r) : BlockRow).block_height = r.block_height := by
    intro r
    split <;> rfl
  have hff : ∀ r : BlockRow,
      ((fun r : BlockRow => if r.block_height == h then
          { r with block_hash := hash, block_timestamp := ts, transaction_count := cnt }
        else r) ∘ (fun r : BlockRow => if r.block_height == h then
          { r with block_hash := hash, block_timestamp := ts, transaction_count := cnt }
        else r)) r =
      (fun r : BlockRow => if r.block_height == h then
          { r with block_hash := hash, block_timestamp := ts, transaction_count := cnt }
        else r) r := by
    intro r
    by_cases hr : (r.block_height == h) = true <;> simp [Function.comp, hr]
  rw [store_processed_block_blocks_eq db h hash ts cnt,
    store_processed_block_blocks_eq]
  rw [store_processed_block_blocks_eq db h hash ts cnt]
  by_cases hany : db.blocks.any (fun r => r.block_height == h) = true
  · rw [if_pos hany]
    have hany2 : (db.blocks.map (fun r =>
        if r.block_height == h then
          { r with block_hash := hash, block_timestamp := ts, transaction_count := cnt }
        else r)).any (fun r => r.block_height == h) = true := by
      rw [List.any_map]
      have hcomp : ((fun (r : BlockRow) => r.block_height == h) ∘ (fun r =>
          if r.block_height == h then
            { r with block_hash := hash, block_timestamp := ts, transaction_count := cnt }
          else r)) = fun (r : BlockRow) => r.block_height == h := by
        funext r
        simp only [Function.comp_apply]
        rw [hfh r]
      rw [hcomp]
      exact hany
    rw [if_pos hany2, List.map_map]
    exact List.map_congr_left (fun r _ => hff r)
  · rw [if_neg hany]
    have hany2 : ((db.blocks ++ [(⟨h, hash, ts, cnt⟩ : BlockRow)]).any
        (fun r => r.block_height == h)) = true := by
      simp
    rw [if_pos hany2, List.map_append]
    have h1 : db.blocks.map (fun r =>
        if r.block_height == h then
          { r with block_hash := hash, block_timestamp := ts, transaction_count := cnt }
        else r) = db.blocks := by
      have hall : ∀ r ∈ db.blocks, (r.block_height == h) = false := by
        intro r hr
        rcases hb : (r.block_height == h) with _ | _
        · rfl
        · exact absurd (List.any_eq_true.mpr ⟨r, hr, hb⟩) hany
      calc db.blocks.map _ = db.blocks.map id :=
            List.map_congr_left (fun r hr => by rw [if_neg (by simp [hall r hr])]; rfl)
        _ = db.blocks := List.map_id db.blocks
    rw [h1]
    simp


/-- A (txid, height) key already has a row in the transactions table. -/
def TxKeyPresent (db : Db) (t : List Nat) (h : Nat) : Prop :=
  db.transactions.any (fun r => r.transaction_id == t && r.block_height == h) = true

/-- A (txid, height) key already has a row in the txid index table. -/
def IdxKeyPresent (db : Db) (t : List Nat) (h : Nat) : Prop :=
  db.txid_block_index.any (fun r => r.1 == t && r.2 == h) = true

theorem any_append_of_any {α : Type} (l l2 : List α) (p : α → Bool) (h : l.any p = true) :
    (l ++ l2).any p = true := by
  simp only [List.any_append, h, Bool.true_or]

theorem store_transaction_transactions_eq (db : Db) (h i : Nat) (t : List Nat)
    (cb : Bool) (ic oc : Nat) (fee : Option Int) :
    (store_transaction db h i t cb ic oc fee).transactions =
      if db.transactions.any (fun r => r.transaction_id == t && r.block_height == h) then
        db.transactions
      else db.transactions ++ [⟨t, h, i, cb, fee, ic, oc⟩] := by
  unfold store_transaction
  rw [add_txid_to_index_transactions]
  split <;> rfl

theorem store_transaction_index_eq (db : Db) (h i : Nat) (t : List Nat)
    (cb : Bool) (ic oc : Nat) (fee : Option Int) :
    (store_transaction db h i t cb ic oc fee).txid_block_index =
      if db.txid_block_index.any (fun r => r.1 == t && r.2 == h) then
        db.txid_block_index
      else db.txid_block_index ++ [(t, h)] := by
  unfold store_transaction add_txid_to_index
  split
  · split <;> rfl
  · split
    · rfl
    · rfl

theorem txKeyPresent_of_eq (db db2 : Db) (t : List Nat) (h : Nat)
    (he : db2.transactions = db.transactions) (hp : TxKeyPresent db t h) :
    TxKeyPresent db2 t h := by
  unfold TxKeyPresent at hp ⊢
  rw [he]
  exact hp

theorem idxKeyPresent_of_eq (db db2 : Db) (t : List Nat) (h : Nat)
    (he : db2.txid_block_index = db.txid_block_index) (hp : IdxKeyPresent db t h) :
    IdxKeyPresent db2 t h := by
  unfold IdxKeyPresent at hp ⊢
  rw [he]
  exact hp

theorem store_transaction_transactions_of_present (db : Db) (h i : Nat) (t : List Nat)
    (cb : Bool) (ic oc : Nat) (fee : Option Int) (hp : TxKeyPresent db t h) :
    (store_transaction db h i t cb ic oc fee).transactions = db.transactions := by
  unfold TxKeyPresent at hp
  rw [store_transaction_transactions_eq, if_pos hp]

theorem store_transaction_index_of_present (db : Db) (h i : Nat) (t : List Nat)
    (cb : Bool) (ic oc : Nat) (fee : Option Int) (hp : IdxKeyPresent db t h) :
    (store_transaction db h i t cb ic oc fee).txid_block_index = db.txid_block_index := by
  unfold IdxKeyPresent at hp
  rw [store_transaction_index_eq, if_pos hp]

theorem store_transaction_key_present (db : Db) (h i : Nat) (t : List Nat)
    (cb : Bool) (ic oc : Nat) (fee : Option Int) :
    TxKeyPresent (store_transaction db h i t cb ic oc fee) t h := by
  unfold TxKeyPresent
  rw [store_transaction_transactions_eq]
  split
  case isTrue hc => exact hc
  case isFalse hc => simp

theorem store_transaction_idx_present (db : Db) (h i : Nat) (t : List Nat)
    (cb : Bool) (ic oc : Nat) (fee : Option Int) :
    IdxKeyPresent (store_transaction db h i t cb ic oc fee) t h := by
  unfold IdxKeyPresent
  rw [store_transaction_index_eq]
  split
  case isTrue hc => exact hc
  case isFalse hc => simp

theorem store_transaction_tx_mono (db : Db) (h i : Nat) (t t2 : List Nat) (h2 : Nat)
    (cb : Bool) (ic oc : Nat) (fee : Option Int) (hp : TxKeyPresent db t2 h2) :
    TxKeyPresent (store_transaction db h i t cb ic oc fee) t2 h2 := by
  unfold TxKeyPresent at hp ⊢
  rw [store_transaction_transactions_eq]
  split
  · exact hp
  · exact any_append_of_any _ _ _ hp

theorem store_transaction_idx_mono (db : Db) (h i : Nat) (t t2 : List Nat) (h2 : Nat)
    (cb : Bool) (ic oc : Nat) (fee : Option Int) (hp : IdxKeyPresent db t2 h2) :
    IdxKeyPresent (store_transaction db h i t cb ic oc fee) t2 h2 := by
  unfold IdxKeyPresent at hp ⊢
  rw [store_transaction_index_eq]
  split
  · exact hp
  · exact any_append_of_any _ _ _ hp

theorem processOneTx_tx_mono (h : Nat) (db : Db) (i : Nat) (tx : Tx) (t2 : List Nat)
    (h2 : Nat) (hp : TxKeyPresent db t2 h2) :
    TxKeyPresent (processOneTx h db i tx) t2 h2 := by
  have hst := store_transaction_tx_mono db h i tx.txid t2 h2 tx.is_coinbase
    tx.inputs.length tx.outputs.length (some 0) hp
  unfold processOneTx
  split
  · exact txKeyPresent_of_eq _ _ _ _
      (processOutputsFrom_frame h tx.txid tx.outputs _ 0).2.1 hst
  · refine txKeyPresent_of_eq _ _ _ _
      (processInputsFrom_frame h tx.txid tx.inputs _ 0).2.1 ?_
    exact txKeyPresent_of_eq _ _ _ _
      (processOutputsFrom_frame h tx.txid tx.outputs _ 0).2.1 hst

theorem processOneTx_idx_mono (h : Nat) (db : Db) (i : Nat) (tx : Tx) (t2 : List Nat)
    (h2 : Nat) (hp : IdxKeyPresent db t2 h2) :
    IdxKeyPresent (processOneTx h db i tx) t2 h2 := by
  have hst := store_transaction_idx_mono db h i tx.txid t2 h2 tx.is_coinbase
    tx.inputs.length tx.outputs.length (some 0) hp
  unfold processOneTx
  split
  · exact idxKeyPresent_of_eq _ _ _ _
      (processOutputsFrom_frame h tx.txid tx.outputs _ 0).2.2 hst
  · refine idxKeyPresent_of_eq _ _ _ _
      (processInputsFrom_frame h tx.txid tx.inputs _ 0).2.2.1 ?_
    exact idxKeyPresent_of_eq _ _ _ _
      (processOutputsFrom_frame h tx.txid tx.outputs _ 0).2.2 hst

theorem processTxsFrom_tx_mono (h : Nat) :
    ∀ (txs : List Tx) (db : Db) (i : Nat) (t2 : List Nat) (h2 : Nat),
      TxKeyPresent db t2 h2 → TxKeyPresent (processTxsFrom h db i txs) t2 h2 := by
  intro txs
  induction txs with
  | nil => intro db i t2 h2 hp; exact hp
  | cons tx rest ih =>
    intro db i t2 h2 hp
    rw [processTxsFrom]
    exact ih _ _ _ _ (processOneTx_tx_mono h db i tx t2 h2 hp)

theorem processTxsFrom_idx_mono (h : Nat) :
    ∀ (txs : List Tx) (db : Db) (i : Nat) (t2 : List Nat) (h2 : Nat),
      IdxKeyPresent db t2 h2 → IdxKeyPresent (processTxsFrom h db i txs) t2 h2 := by
  intro txs
  induction txs with
  | nil => intro db i t2 h2 hp; exact hp
  | cons tx rest ih =>
    intro db i t2 h2 hp
    rw [processTxsFrom]
    exact ih _ _ _ _ (processOneTx_idx_mono h db i tx t2 h2 hp)

theorem processOneTx_key_present (h : Nat) (db : Db) (i : Nat) (tx : Tx) :
    TxKeyPresent (processOneTx h db i tx) tx.txid h ∧
    IdxKeyPresent (processOneTx h db i tx) tx.txid h := by
  have h1 := store_transaction_key_present db h i tx.txid tx.is_coinbase
    tx.inputs.length tx.outputs.length (some 0)
  have h2 := store_transaction_idx_present db h i tx.txid tx.is_coinbase
    tx.inputs.length tx.outputs.length (some 0)
  unfold processOneTx
  split
  · exact ⟨txKeyPresent_of_eq _ _ _ _
      (processOutputsFrom_frame h tx.txid tx.outputs _ 0).2.1 h1,
      idxKeyPresent_of_eq _ _ _ _
      (processOutputsFrom_frame h tx.txid tx.outputs _ 0).2.2 h2⟩
  · constructor
    · refine txKeyPresent_of_eq _ _ _ _
        (processInputsFrom_frame h tx.txid tx.inputs _ 0).2.1 ?_
      exact txKeyPresent_of_eq _ _ _ _
        (processOutputsFrom_frame h tx.txid tx.outputs _ 0).2.1 h1
    · refine idxKeyPresent_of_eq _ _ _ _
        (processInputsFrom_frame h tx.txid tx.inputs _ 0).2.2.1 ?_
      exact idxKeyPresent_of_eq _ _ _ _
        (processOutputsFrom_frame h tx.txid tx.outputs _ 0).2.2 h2

theorem processTxsFrom_keys_present (h : Nat) :
    ∀ (txs : List Tx) (db : Db) (i : Nat) (tx : Tx), tx ∈ txs →
      TxKeyPresent (processTxsFrom h db i txs) tx.txid h ∧
      IdxKeyPresent (processTxsFrom h db i txs) tx.txid h := by
  intro txs
  induction txs with
  | nil => intro db i tx htx; cases htx
  | cons tx0 rest ih =>
    intro db i tx htx
    rw [processTxsFrom]
    rcases List.mem_cons.mp htx with heq | hmem
    · subst heq
      obtain ⟨k1, k2⟩ := processOneTx_key_present h db i tx
      exact ⟨processTxsFrom_tx_mono h rest _ _ _ _ k1,
        processTxsFrom_idx_mono h rest _ _ _ _ k2⟩
    · exact ih _ _ tx hmem

theorem processOneTx_transactions_of_present (h : Nat) (db : Db) (i : Nat) (tx : Tx)
    (hp : TxKeyPresent db tx.txid h) :
    (processOneTx h db i tx).transactions = db.transactions := by
  unfold processOneTx process_transaction_outputs process_transaction_inputs
  split
  · rw [(processOutputsFrom_frame h tx.txid tx.outputs _ 0).2.1,
      store_transaction_transactions_of_present db h i tx.txid _ _ _ _ hp]
  · rw [(processInputsFrom_frame h tx.txid tx.inputs _ 0).2.1,
      (processOutputsFrom_frame h tx.txid tx.outputs _ 0).2.1,
      store_transaction_transactions_of_present db h i tx.txid _ _ _ _ hp]

theorem processOneTx_index_of_present (h : Nat) (db : Db) (i : Nat) (tx : Tx)
    (hp : IdxKeyPresent db tx.txid h) :
    (processOneTx h db i tx).txid_block_index = db.txid_block_index := by
  unfold processOneTx process_transaction_outputs process_transaction_inputs
  split
  · rw [(processOutputsFrom_frame h tx.txid tx.outputs _ 0).2.2,
      store_transaction_index_of_present db h i tx.txid _ _ _ _ hp]
  · rw [(processInputsFrom_frame h tx.txid tx.inputs _ 0).2.2.1,
      (processOutputsFrom_frame h tx.txid tx.outputs _ 0).2.2,
      store_transaction_index_of_present db h i tx.txid _ _ _ _ hp]

theorem processTxsFrom_transactions_of_present (h : Nat) :
    ∀ (txs : List Tx) (db : Db) (i : Nat),
      (∀ tx ∈ txs, TxKeyPresent db tx.txid h) →
      (processTxsFrom h db i txs).transactions = db.transactions := by
  intro txs
  induction txs with
  | nil => intro db i _; rfl
  | cons tx rest ih =>
    intro db i hp
    rw [processTxsFrom]
    have he := processOneTx_transactions_of_present h db i tx
      (hp tx (List.mem_cons_self tx rest))
    rw [ih _ _ (fun tx2 h2 => txKeyPresent_of_eq db _ _ _ he
      (hp tx2 (List.mem_cons_of_mem tx h2))), he]

theorem processTxsFrom_index_of_present (h : Nat) :
    ∀ (txs : List Tx) (db : Db) (i : Nat),
      (∀ tx ∈ txs, IdxKeyPresent db tx.txid h) →
      (processTxsFrom h db i txs).txid_block_index = db.txid_block_index := by
  intro txs
  induction txs with
  | nil => intro db i _; rfl
  | cons tx rest ih =>
    intro db i hp
    rw [processTxsFrom]
    have he := processOneTx_index_of_present h db i tx
      (hp tx (List.mem_cons_self tx rest))
    rw [ih _ _ (fun tx2 h2 => idxKeyPresent_of_eq db _ _ _ he
      (hp tx2 (List.mem_cons_of_mem tx h2))), he]

/-- An address string already has a row in the addresses table. -/
def AddrPresent (db : Db) (a : String) : Prop :=
  db.addresses.any (fun r => r.address_string == a) = true

theorem any_addr_map (l : List AddressRow) (f : AddressRow → AddressRow)
    (hf : ∀ r, (f r).address_string = r.address_string) (a : String) :
    (l.map f).any (fun r => r.address_string == a) =
      l.any (fun r => r.address_string == a) := by
  rw [List.any_map]
  have hcomp : ((fun r : AddressRow => r.address_string == a) ∘ f) =
      fun r : AddressRow => r.address_string == a := by
    funext r
    simp only [Function.comp_apply]
    rw [hf r]
  rw [hcomp]

theorem addrPresent_of_eq (db db2 : Db) (a : String)
    (he : db2.addresses = db.addresses) (hp : AddrPresent db a) : AddrPresent db2 a := by
  unfold AddrPresent at hp ⊢
  rw [he]
  exact hp

theorem get_or_create_addr_mono (db : Db) (a2 st : String) (h : Nat) (x : Option Json)
    (a : String) (hp : AddrPresent db a) :
    AddrPresent (get_or_create_address db a2 st h x).2 a := by
  unfold AddrPresent at hp ⊢
  unfold get_or_create_address
  split
  · exact hp
  · exact any_append_of_any _ _ _ hp

theorem update_receive_addr_mono (db : Db) (aid : Nat) (a : String)
    (hp : AddrPresent db a) : AddrPresent (update_address_receive_count db aid) a := by
  unfold AddrPresent at hp ⊢
  unfold update_address_receive_count
  rw [any_addr_map]
  · exact hp
  · intro r
    split <;> rfl

theorem store_output_addr_mono (db : Db) (aid : Nat) (t : List Nat) (h v : Nat)
    (val : Int) (a : String) (hp : AddrPresent db a) :
    AddrPresent (store_transaction_output db aid t h v val).2 a := by
  unfold store_transaction_output
  refine update_receive_addr_mono _ aid a ?_
  unfold AddrPresent at hp ⊢
  exact hp

theorem store_input_addr_mono (db : Db) (aid : Nat) (t : List Nat) (h i oid : Nat)
    (val : Int) (pk : Option (List Nat)) (a : String) (hp : AddrPresent db a) :
    AddrPresent (store_transaction_input db aid t h i oid val pk).2 a := by
  unfold AddrPresent at hp ⊢
  cases pk with
  | none =>
    simp only [store_transaction_input, update_address_spend_count]
    rw [any_addr_map]
    · exact hp
    · intro r
      split <;> rfl
  | some p =>
    simp only [store_transaction_input, update_address_spend_count,
      update_address_public_key]
    rw [any_addr_map]
    · rw [any_addr_map]
      · exact hp
      · intro r
        split <;> rfl
    · intro r
      split <;> rfl

theorem processOneOutput_addr_mono (h : Nat) (txid : List Nat) (db : Db) (vout : Nat)
    (o : TxOut) (a : String) (hp : AddrPresent db a) :
    AddrPresent (processOneOutput h txid db vout o) a := by
  unfold processOneOutput
  rcases hcl : extract_address_from_script o.script_pubkey with _ | info
  · exact hp
  · exact store_output_addr_mono _ _ _ _ _ _ a (get_or_create_addr_mono db _ _ _ _ a hp)

theorem processOutputsFrom_addr_mono (h : Nat) (txid : List Nat) :
    ∀ (outs : List TxOut) (db : Db) (vout : Nat) (a : String),
      AddrPresent db a → AddrPresent (processOutputsFrom h txid db vout outs) a := by
  intro outs
  induction outs with
  | nil => intro db vout a hp; exact hp
  | cons o rest ih =>
    intro db vout a hp
    rw [processOutputsFrom]
    exact ih _ _ a (processOneOutput_addr_mono h txid db vout o a hp)

theorem processOneInput_addr_mono (h : Nat) (txid : List Nat) (db : Db) (idx : Nat)
    (inp : TxIn) (a : String) (hp : AddrPresent db a) :
    AddrPresent (processOneInput h txid db idx inp) a := by
  unfold processOneInput
  rcases hf : find_output db inp.prev_txid inp.prev_vout with _ | oi
  · exact hp
  · exact addrPresent_of_eq _ _ a (mark_output_spent_addresses _ _ _)
      (store_input_addr_mono db _ _ _ _ _ _ _ a hp)

theorem processInputsFrom_addr_mono (h : Nat) (txid : List Nat) :
    ∀ (ins : List TxIn) (db : Db) (idx : Nat) (a : String),
      AddrPresent db a → AddrPresent (processInputsFrom h txid db idx ins) a := by
  intro ins
  induction ins with
  | nil => intro db idx a hp; exact hp
  | cons i rest ih =>
    intro db idx a hp
    rw [processInputsFrom]
    exact ih _ _ a (processOneInput_addr_mono h txid db idx i a hp)

theorem store_transaction_addr_mono (db : Db) (h i : Nat) (t : List Nat) (cb : Bool)
    (ic oc : Nat) (fee : Option Int) (a : String) (hp : AddrPresent db a) :
    AddrPresent (store_transaction db h i t cb ic oc fee) a :=
  addrPresent_of_eq db _ a (by simp) hp

theorem processOneTx_addr_mono (h : Nat) (db : Db) (i : Nat) (tx : Tx) (a : String)
    (hp : AddrPresent db a) : AddrPresent (processOneTx h db i tx) a := by
  unfold processOneTx process_transaction_outputs process_transaction_inputs
  split
  · exact processOutputsFrom_addr_mono h tx.txid tx.outputs _ 0 a
      (store_transaction_addr_mono db h i tx.txid _ _ _ _ a hp)
  · refine processInputsFrom_addr_mono h tx.txid tx.inputs _ 0 a ?_
    exact processOutputsFrom_addr_mono h tx.txid tx.outputs _ 0 a
      (store_transaction_addr_mono db h i tx.txid _ _ _ _ a hp)

theorem processTxsFrom_addr_mono (h : Nat) :
    ∀ (txs : List Tx) (db : Db) (i : Nat) (a : String),
      AddrPresent db a → AddrPresent (processTxsFrom h db i txs) a := by
  intro txs
  induction txs with
  | nil => intro db i a hp; exact hp
  | cons tx rest ih =>
    intro db i a hp
    rw [processTxsFrom]
    exact ih _ _ a (processOneTx_addr_mono h db i tx a hp)

theorem get_or_create_present (db : Db) (a st : String) (h : Nat) (x : Option Json) :
    AddrPresent (get_or_create_address db a st h x).2 a := by
  unfold AddrPresent get_or_create_address
  split
  · rename_i r heq
    have h1 := List.find?_some heq
    exact List.any_eq_true.mpr ⟨r, List.mem_of_find?_eq_some heq, h1⟩
  · simp

theorem get_or_create_of_present (db : Db) (a st : String) (h : Nat) (x : Option Json)
    (hp : AddrPresent db a) : (get_or_create_address db a st h x).2 = db := by
  unfold AddrPresent at hp
  unfold get_or_create_address
  split
  · rfl
  · rename_i heq
    exfalso
    rcases List.any_eq_true.mp hp with ⟨r, hr, hpr⟩
    exact List.find?_eq_none.mp heq r hr hpr

theorem processOneOutput_ensures (h : Nat) (txid : List Nat) (db : Db) (vout : Nat)
    (o : TxOut) (info : ScriptInfo)
    (hcl : extract_address_from_script o.script_pubkey = some info) :
    AddrPresent (processOneOutput h txid db vout o) info.address := by
  unfold processOneOutput
  rw [hcl]
  exact store_output_addr_mono _ _ _ _ _ _ info.address
    (get_or_create_present db info.address info.script_type h info.extra_data)

theorem processOutputsFrom_ensures (h : Nat) (txid : List Nat) :
    ∀ (outs : List TxOut) (db : Db) (vout : Nat),
      ∀ o ∈ outs, ∀ info : ScriptInfo,
        extract_address_from_script o.script_pubkey = some info →
        AddrPresent (processOutputsFrom h txid db vout outs) info.address := by
  intro outs
  induction outs with
  | nil => intro db vout o ho; exact absurd ho (List.not_mem_nil o)
  | cons o1 rest ih =>
    intro db vout o ho info hcl
    rw [processOutputsFrom]
    rcases List.mem_cons.mp ho with h1 | h1
    · subst h1
      exact processOutputsFrom_addr_mono h txid rest _ _ info.address
        (processOneOutput_ensures h txid db vout o info hcl)
    · exact ih _ _ o h1 info hcl

theorem processOneTx_ensures (h : Nat) (db : Db) (i : Nat) (tx : Tx)
    (o : TxOut) (ho : o ∈ tx.outputs) (info : ScriptInfo)
    (hcl : extract_address_from_script o.script_pubkey = some info) :
    AddrPresent (processOneTx h db i tx) info.address := by
  unfold processOneTx process_transaction_outputs process_transaction_inputs
  split
  · exact processOutputsFrom_ensures h tx.txid tx.outputs _ 0 o ho info hcl
  · exact processInputsFrom_addr_mono h tx.txid tx.inputs _ 0 info.address
      (processOutputsFrom_ensures h tx.txid tx.outputs _ 0 o ho info hcl)

theorem processTxsFrom_ensures (h : Nat) :
    ∀ (txs : List Tx) (db : Db) (i : Nat),
      ∀ tx ∈ txs, ∀ o ∈ tx.outputs, ∀ info : ScriptInfo,
        extract_address_from_script o.script_pubkey = some info →
        AddrPresent (processTxsFrom h db i txs) info.address := by
  intro txs
  induction txs with
  | nil => intro db i tx ht; exact absurd ht (List.not_mem_nil tx)
  | cons tx1 rest ih =>
    intro db i tx ht o ho info hcl
    rw [processTxsFrom]
    rcases List.mem_cons.mp ht with h1 | h1
    · subst h1
      exact processTxsFrom_addr_mono h rest _ _ info.address
        (processOneTx_ensures h db i tx o ho info hcl)
    · exact ih _ _ tx h1 o ho info hcl

theorem processOneOutput_len_of_present (h : Nat) (txid : List Nat) (db : Db)
    (vout : Nat) (o : TxOut)
    (hp : ∀ info : ScriptInfo, extract_address_from_script o.script_pubkey = some info →
      AddrPresent db info.address) :
    (processOneOutput h txid db vout o).addresses.length = db.addresses.length := by
  unfold processOneOutput
  rcases hcl : extract_address_from_script o.script_pubkey with _ | info
  · rfl
  · have he := get_or_create_of_present db info.address info.script_type h
      info.extra_data (hp info hcl)
    simp [he]

theorem processOutputsFrom_len_of_present (h : Nat) (txid : List Nat) :
    ∀ (outs : List TxOut) (db : Db) (vout : Nat),
      (∀ o ∈ outs, ∀ info : ScriptInfo,
        extract_address_from_script o.script_pubkey = some info →
        AddrPresent db info.address) →
      (processOutputsFrom h txid db vout outs).addresses.length =
        db.addresses.length := by
  intro outs
  induction outs with
  | nil => intro db vout _; rfl
  | cons o1 rest ih =>
    intro db vout hp
    rw [processOutputsFrom]
    have h1 := processOneOutput_len_of_present h txid db vout o1
      (fun info hcl => hp o1 (List.mem_cons_self o1 rest) info hcl)
    rw [ih _ _ (fun o ho info hcl => processOneOutput_addr_mono h txid db vout o1
      info.address (hp o (List.mem_cons_of_mem o1 ho) info hcl)), h1]

theorem processOneTx_len_of_present (h : Nat) (db : Db) (i : Nat) (tx : Tx)
    (hp : ∀ o ∈ tx.outputs, ∀ info : ScriptInfo,
      extract_address_from_script o.script_pubkey = some info →
      AddrPresent db info.address) :
    (processOneTx h db i tx).addresses.length = db.addresses.length := by
  unfold processOneTx process_transaction_outputs process_transaction_inputs
  have hst : ∀ o ∈ tx.outputs, ∀ info : ScriptInfo,
      extract_address_from_script o.script_pubkey = some info →
      AddrPresent (store_transaction db h i tx.txid tx.is_coinbase tx.inputs.length
        tx.outputs.length (some 0)) info.address :=
    fun o ho info hcl => addrPresent_of_eq _ _ info.address (by simp)
      (hp o ho info hcl)
  split
  · rw [processOutputsFrom_len_of_present h tx.txid tx.outputs _ 0 hst]
    simp
  · rw [(processInputsFrom_frame h tx.txid tx.inputs _ 0).2.2.2,
      processOutputsFrom_len_of_present h tx.txid tx.outputs _ 0 hst]
    simp

theorem processTxsFrom_len_of_present (h : Nat) :
    ∀ (txs : List Tx) (db : Db) (i : Nat),
      (∀ tx ∈ txs, ∀ o ∈ tx.outputs, ∀ info : ScriptInfo,
        extract_address_from_script o.script_pubkey = some info →
        AddrPresent db info.address) →
      (processTxsFrom h db i txs).addresses.length = db.addresses.length := by
  intro txs
  induction txs with
  | nil => intro db i _; rfl
  | cons tx1 rest ih =>
    intro db i hp
    rw [processTxsFrom]
    have h1 := processOneTx_len_of_present h db i tx1
      (fun o ho info hcl => hp tx1 (List.mem_cons_self tx1 rest) o ho info hcl)
    rw [ih _ _ (fun tx ht o ho info hcl => processOneTx_addr_mono h db i tx1
      info.address (hp tx (List.mem_cons_of_mem tx1 ht) o ho info hcl)), h1]

/-- C2 (amended): re-running process_single_block on an already committed
block leaves the blocks table, the transactions table and the txid index
unchanged (their inserts are guarded by lookups or upsert on the key), and
creates no new address row; but the address_outputs table, whose insert
has no conflict clause, gains one fresh row per classified output of the
block on every run. -/
theorem process_single_block_rerun (db : Db) (h : Nat) (b : BlockData) :
    (process_single_block (process_single_block db h b) h b).blocks =
      (process_single_block db h b).blocks ∧
    (process_single_block (process_single_block db h b) h b).transactions =
      (process_single_block db h b).transactions ∧
    (process_single_block (process_single_block db h b) h b).txid_block_index =
      (process_single_block db h b).txid_block_index ∧
    (process_single_block (process_single_block db h b) h b).addresses.length =
      (process_single_block db h b).addresses.length ∧
    (process_single_block (process_single_block db h b) h b).address_outputs.length =
      (process_single_block db h b).address_outputs.length + classifiedCount b := by
  have hun : ∀ d : Db, process_single_block d h b =
      processTxsFrom h (store_processed_block d h b.block_hash b.time b.txdata.length)
        0 b.txdata := by
    intro d
    rfl
  have hkeys : ∀ tx ∈ b.txdata,
      TxKeyPresent (process_single_block db h b) tx.txid h ∧
      IdxKeyPresent (process_single_block db h b) tx.txid h := by
    intro tx ht
    rw [hun db]
    exact processTxsFrom_keys_present h b.txdata _ 0 tx ht
  have haddr : ∀ tx ∈ b.txdata, ∀ o ∈ tx.outputs, ∀ info : ScriptInfo,
      extract_address_from_script o.script_pubkey = some info →
      AddrPresent (process_single_block db h b) info.address := by
    intro tx ht o ho info hcl
    rw [hun db]
    exact processTxsFrom_ensures h b.txdata _ 0 tx ht o ho info hcl
  refine ⟨?_, ?_, ?_, ?_, process_single_block_outputs_length _ h b⟩
  · rw [hun (process_single_block db h b), processTxsFrom_blocks,
      store_processed_block_blocks_eq, hun db, processTxsFrom_blocks,
      ← store_processed_block_blocks_eq,
      store_processed_block_blocks_idem, ← processTxsFrom_blocks h b.txdata _ 0,
      ← hun db]
  · rw [hun (process_single_block db h b),
      processTxsFrom_transactions_of_present h b.txdata _ 0
        (fun tx ht => txKeyPresent_of_eq _ _ _ _
          (store_processed_block_transactions _ h _ _ _) (hkeys tx ht).1),
      store_processed_block_transactions]
  · rw [hun (process_single_block db h b),
      processTxsFrom_index_of_present h b.txdata _ 0
        (fun tx ht => idxKeyPresent_of_eq _ _ _ _
          (store_processed_block_index _ h _ _ _) (hkeys tx ht).2),
      store_processed_block_index]
  · rw [hun (process_single_block db h b),
      processTxsFrom_len_of_present h b.txdata _ 0
        (fun tx ht o ho info hcl => addrPresent_of_eq _ _ _
          (store_processed_block_addresses _ h _ _ _) (haddr tx ht o ho info hcl)),
      store_processed_block_addresses]

/-- A coinbase transaction paying a single pay-to-public-key output. -/
def cbTx : Tx :=
  ⟨List.replicate 32 0xaa, true,
   [⟨List.replicate 32 0, 0xffffffff, []⟩],
   [⟨5000000000, 0x41 :: (List.replicate 65 4 ++ [0xac])⟩]⟩

/-- A one-transaction block around cbTx. -/
def c2Block : BlockData := ⟨List.replicate 32 0xbb, 1231006505, [cbTx]⟩

/-- C2, counterexample: re-running process_single_block on the very same
block data is not the identity: the single classified output is inserted
again (address_outputs grows from one row to two) and the address's
receive counter is bumped again (1 to 2), because store_transaction_output
inserts without a conflict clause. -/
theorem process_single_block_rerun_counterexample :
    (process_single_block emptyDb 0 c2Block).address_outputs.length = 1 ∧
    (process_single_block (process_single_block emptyDb 0 c2Block) 0
        c2Block).address_outputs.length = 2 ∧
    (process_single_block emptyDb 0 c2Block).addresses.map
        (fun r => r.total_receive_count) = [1] ∧
    (process_single_block (process_single_block emptyDb 0 c2Block) 0
        c2Block).addresses.map (fun r => r.total_receive_count) = [2] := by
  decide
